import Mathlib

/-!
Verification development for the connate service supervisor.

The definitions below are a shallow embedding of the Rust sources:
machine integers are modelled as Nat/Int with explicit wrapping and
saturation, the mutable service table as a `List Service` passed
explicitly, and fallible operations as `Option`/`Except`.  Side effects
on the outside world (signals sent, file descriptors closed) are
modelled as explicit action lists where a claim refers to them.
-/

namespace Connate

/-! ## Machine integer helpers (i32 / i64 / u32 semantics) -/

def I64MIN : Int := -(2 ^ 63)
def I64MAX : Int := 2 ^ 63 - 1
def I32MIN : Int := -(2 ^ 31)
def I32MAX : Int := 2 ^ 31 - 1
def U32MAX : Nat := 2 ^ 32 - 1

/-- Saturate an integer into the i64 range (Rust saturating arithmetic). -/
def sat64 (n : Int) : Int := max I64MIN (min I64MAX n)

/-- Saturate an integer into the i32 range (Rust saturating arithmetic). -/
def sat32 (n : Int) : Int := max I32MIN (min I32MAX n)

/-- Two's-complement wrap-around into the i64 range (Rust wrapping arithmetic). -/
def wrap64 (n : Int) : Int := (n + 2 ^ 63) % 2 ^ 64 - 2 ^ 63

/-! ## Data model (src/types.rs, src/internal_api.rs) -/

/-- timespec from src/types.rs: tv_sec and tv_nsec are i64. -/
structure Timespec where
  tv_sec : Int
  tv_nsec : Int
deriving DecidableEq, Repr

/-- timespec::millis_since from src/types.rs: wrapping_sub on both
components, saturating_mul by 1000, truncated division of the
nanosecond difference, saturating_add. -/
def Timespec.millisSince (now earlier : Timespec) : Int :=
  sat64 (sat64 (wrap64 (now.tv_sec - earlier.tv_sec) * 1000)
    + (wrap64 (now.tv_nsec - earlier.tv_nsec)).tdiv 1000000)

/-- State from src/internal_api.rs (twelve values). -/
inductive State
  | Down
  | WaitingToStart
  | SettingUp
  | Starting
  | Up
  | WaitingToStop
  | Stopping
  | CleaningUp
  | Retrying
  | Failed
  | ForceDown
  | CannotStop
deriving DecidableEq, Repr

/-- Target from src/internal_api.rs (four values). -/
inductive Target
  | Down
  | Up
  | Restart
  | Once
deriving DecidableEq, Repr

/-- Run from src/internal_api.rs.  The payload of Exec/Fn (paths, argv,
function pointers) never influences the state machine decisions the
claims are about, only whether the phase is None does; the payloads are
therefore dropped. -/
inductive Run
  | None
  | Exec
  | Fn
deriving DecidableEq, Repr

/-- Ready from src/internal_api.rs. -/
inductive Ready
  | Immediately
  | Notify
  | Daemonize
deriving DecidableEq, Repr

/-- ServiceConfig from src/internal_api.rs, restricted to the fields the
claims depend on.  Service names are byte strings, index lists are lists
of table indices.  c_int valued timeouts are Int, max_attempt_count is
u32 hence Nat. -/
structure ServiceConfig where
  name : List Nat
  init_target : Target
  needs : List Nat
  wants : List Nat
  conflicts : List Nat
  stop_dependencies : List Nat
  groups : List Nat
  target_up_propagate_up : List Nat
  target_up_propagate_down : List Nat
  target_down_propagate_down : List Nat
  propagate_dirty : List Nat
  setup : Run
  run : Run
  ready : Ready
  cleanup : Run
  stop_all_children : Bool
  max_setup_time_millis : Option Int
  max_ready_time_millis : Option Int
  max_stop_time_millis : Option Int
  max_cleanup_time_millis : Option Int
  retry_wait_period_millis : Int
  retry_wait_multiplier : Int
  max_attempt_count : Option Nat
  is_logger : Bool
deriving DecidableEq, Repr

/-- Service from src/internal_api.rs.  pids and file descriptors are
i32, attempt_count is u32 (Nat, with explicit saturation at U32MAX). -/
structure Service where
  state : State
  target : Target
  pid : Option Int
  supervisor_pid : Option Int
  stdin_pipe : Option (Int × Int)
  attempt_count : Nat
  exit_code : Option Int
  time : Timespec
  ready : Bool
  dirty : Bool
  settle_pipe : Option (Int × Int)
  cfg : ServiceConfig
deriving DecidableEq, Repr

/-- Service::has_pid from src/internal_api.rs. -/
def Service.has_pid (svc : Service) : Bool :=
  svc.pid.isSome || svc.supervisor_pid.isSome

/-- Service::retry_delay_millis from src/internal_api.rs:
(period as i64).saturating_mul(multiplier.saturating_pow(attempt_count.saturating_sub(1)) as i64).
saturating_pow on i32 equals the exact power saturated into i32 range;
u32 saturating_sub 1 is Nat subtraction. -/
def Service.retry_delay_millis (svc : Service) : Int :=
  sat64 (svc.cfg.retry_wait_period_millis *
    sat32 (svc.cfg.retry_wait_multiplier ^ (svc.attempt_count - 1)))

/-- UP_TIME_MILLIS from src/constants.rs. -/
def UP_TIME_MILLIS : Int := 1000

/-- FORCED_DOWN_TIME_MILLIS from src/constants.rs. -/
def FORCED_DOWN_TIME_MILLIS : Int := 1000

/-! ## State machine (src/connate/next_state.rs) -/

/-- NextState enum from src/connate/next_state.rs. -/
inductive NextState
  | Down
  | WaitingToStart
  | SettingUp
  | Starting
  | Up
  | WaitingToStop
  | Stopping
  | CleaningUp
  | ForceDown
  | FailedOrRetry
  | CannotStop
  | None
  | UpStable
deriving DecidableEq, Repr

/-- needs_satisfied from src/connate/next_state.rs. -/
def needs_satisfied (svc : Service) (svcs : List Service) : Bool :=
  svc.cfg.needs.all fun i =>
    match svcs.get? i with
    | some dep => decide (dep.state = State.Up)
    | Option.none => true

/-- wants_satisfied from src/connate/next_state.rs. -/
def wants_satisfied (svc : Service) (svcs : List Service) : Bool :=
  svc.cfg.wants.all fun i =>
    match svcs.get? i with
    | some dep =>
      decide (dep.state = State.Up ∨ dep.state = State.Failed ∨ dep.state = State.CannotStop)
    | Option.none => true

/-- conflicts_satisfied from src/connate/next_state.rs. -/
def conflicts_satisfied (svc : Service) (svcs : List Service) : Bool :=
  svc.cfg.conflicts.all fun i =>
    match svcs.get? i with
    | some dep => decide (dep.state = State.Down ∨ dep.state = State.Failed)
    | Option.none => true

/-- start_dep_satisfied from src/connate/next_state.rs. -/
def start_dep_satisfied (svc : Service) (svcs : List Service) : Bool :=
  needs_satisfied svc svcs && wants_satisfied svc svcs && conflicts_satisfied svc svcs

/-- stop_deps_satisfied from src/connate/next_state.rs. -/
def stop_deps_satisfied (svc : Service) (svcs : List Service) : Bool :=
  svc.cfg.stop_dependencies.all fun i =>
    match svcs.get? i with
    | some dep =>
      decide (dep.state = State.Down ∨ dep.state = State.WaitingToStart ∨
        dep.state = State.Failed ∨ dep.state = State.CannotStop)
    | Option.none => true

/-- setup_time_elapsed from src/connate/next_state.rs. -/
def setup_time_elapsed (svc : Service) (now : Timespec) : Bool :=
  match svc.cfg.max_setup_time_millis with
  | some mx => decide (mx ≤ now.millisSince svc.time)
  | Option.none => false

/-- start_time_elapsed from src/connate/next_state.rs. -/
def start_time_elapsed (svc : Service) (now : Timespec) : Bool :=
  match svc.cfg.max_ready_time_millis with
  | some mx => decide (mx ≤ now.millisSince svc.time)
  | Option.none => false

/-- up_time_elapsed from src/connate/next_state.rs. -/
def up_time_elapsed (svc : Service) (now : Timespec) : Bool :=
  decide (UP_TIME_MILLIS ≤ now.millisSince svc.time)

/-- stop_time_elapsed from src/connate/next_state.rs. -/
def stop_time_elapsed (svc : Service) (now : Timespec) : Bool :=
  match svc.cfg.max_stop_time_millis with
  | some mx => decide (mx ≤ now.millisSince svc.time)
  | Option.none => false

/-- clean_up_time_elapsed from src/connate/next_state.rs. -/
def clean_up_time_elapsed (svc : Service) (now : Timespec) : Bool :=
  match svc.cfg.max_cleanup_time_millis with
  | some mx => decide (mx ≤ now.millisSince svc.time)
  | Option.none => false

/-- forced_down_time_elapsed from src/connate/next_state.rs (strict >). -/
def forced_down_time_elapsed (svc : Service) (now : Timespec) : Bool :=
  decide (FORCED_DOWN_TIME_MILLIS < now.millisSince svc.time)

/-- retry_period_elapsed from src/connate/next_state.rs. -/
def retry_period_elapsed (svc : Service) (now : Timespec) : Bool :=
  decide (svc.retry_delay_millis ≤ now.millisSince svc.time)

/-- NextState::from_down from src/connate/next_state.rs. -/
def NextState.from_down (svc : Service) : NextState :=
  if svc.has_pid then NextState.ForceDown
  else
    match svc.target with
    | Target.Down => NextState.None
    | Target.Restart => NextState.Down
    | Target.Up | Target.Once => NextState.WaitingToStart

/-- NextState::from_waiting_to_start from src/connate/next_state.rs. -/
def NextState.from_waiting_to_start (svc : Service) (svcs : List Service) : NextState :=
  if svc.has_pid then NextState.ForceDown
  else
    match svc.target with
    | Target.Down | Target.Restart => NextState.Down
    | Target.Up | Target.Once =>
      if start_dep_satisfied svc svcs then NextState.SettingUp else NextState.None

/-- NextState::from_setting_up from src/connate/next_state.rs. -/
def NextState.from_setting_up (svc : Service) (now : Timespec) : NextState :=
  match svc.cfg.setup with
  | Run.None => if svc.has_pid then NextState.ForceDown else NextState.Starting
  | _ =>
    if svc.pid.isNone && decide (svc.exit_code = some 0) then NextState.Starting
    else if svc.pid.isNone then NextState.FailedOrRetry
    else if svc.pid.isSome && setup_time_elapsed svc now then NextState.ForceDown
    else NextState.None

/-- NextState::from_starting from src/connate/next_state.rs. -/
def NextState.from_starting (svc : Service) (now : Timespec) : NextState :=
  match svc.cfg.run with
  | Run.None => if svc.has_pid then NextState.ForceDown else NextState.Up
  | _ =>
    if !svc.has_pid then NextState.FailedOrRetry
    else if svc.cfg.ready = Ready.Immediately then NextState.Up
    else if svc.ready then NextState.Up
    else if start_time_elapsed svc now then NextState.ForceDown
    else NextState.None

/-- NextState::from_up from src/connate/next_state.rs. -/
def NextState.from_up (svc : Service) (now : Timespec) : NextState :=
  match svc.target with
  | Target.Down | Target.Restart => NextState.WaitingToStop
  | _ =>
    match svc.cfg.run with
    | Run.None => if svc.has_pid then NextState.ForceDown else NextState.None
    | _ =>
      if !svc.has_pid then NextState.FailedOrRetry
      else if 0 < svc.attempt_count && up_time_elapsed svc now then NextState.UpStable
      else NextState.None

/-- NextState::from_waiting_to_stop from src/connate/next_state.rs. -/
def NextState.from_waiting_to_stop (svc : Service) (svcs : List Service) : NextState :=
  match svc.target with
  | Target.Up | Target.Once => NextState.Up
  | Target.Down | Target.Restart =>
    if stop_deps_satisfied svc svcs then NextState.Stopping else NextState.None

/-- NextState::from_stopping from src/connate/next_state.rs. -/
def NextState.from_stopping (svc : Service) (now : Timespec) : NextState :=
  if !svc.has_pid then NextState.CleaningUp
  else if stop_time_elapsed svc now then NextState.ForceDown
  else NextState.None

/-- NextState::from_cleaning_up from src/connate/next_state.rs. -/
def NextState.from_cleaning_up (svc : Service) (now : Timespec) : NextState :=
  if !svc.has_pid then NextState.Down
  else if clean_up_time_elapsed svc now then NextState.ForceDown
  else NextState.None

/-- NextState::from_forced_down from src/connate/next_state.rs. -/
def NextState.from_forced_down (svc : Service) (now : Timespec) : NextState :=
  if !svc.has_pid then
    match svc.target with
    | Target.Up | Target.Once => NextState.FailedOrRetry
    | Target.Down | Target.Restart => NextState.Down
  else if forced_down_time_elapsed svc now then NextState.CannotStop
  else NextState.None

/-- NextState::from_retrying from src/connate/next_state.rs. -/
def NextState.from_retrying (svc : Service) (now : Timespec) : NextState :=
  if svc.has_pid then NextState.ForceDown
  else
    match svc.target with
    | Target.Down | Target.Restart => NextState.Down
    | Target.Up | Target.Once =>
      if retry_period_elapsed svc now then NextState.WaitingToStart else NextState.None

/-- NextState::from_failed from src/connate/next_state.rs. -/
def NextState.from_failed (svc : Service) : NextState :=
  if svc.has_pid then NextState.ForceDown else NextState.None

/-- NextState::from_cannot_stop from src/connate/next_state.rs. -/
def NextState.from_cannot_stop (svc : Service) : NextState :=
  if !svc.has_pid then NextState.FailedOrRetry else NextState.None

/-- NextState::new from src/connate/next_state.rs. -/
def NextState.new (svcs : List Service) (i : Nat) (now : Timespec) : NextState :=
  match svcs.get? i with
  | Option.none => NextState.None
  | some svc =>
    match svc.state with
    | State.Down => NextState.from_down svc
    | State.WaitingToStart => NextState.from_waiting_to_start svc svcs
    | State.SettingUp => NextState.from_setting_up svc now
    | State.Starting => NextState.from_starting svc now
    | State.Up => NextState.from_up svc now
    | State.WaitingToStop => NextState.from_waiting_to_stop svc svcs
    | State.Stopping => NextState.from_stopping svc now
    | State.CleaningUp => NextState.from_cleaning_up svc now
    | State.ForceDown => NextState.from_forced_down svc now
    | State.Retrying => NextState.from_retrying svc now
    | State.Failed => NextState.from_failed svc
    | State.CannotStop => NextState.from_cannot_stop svc

/-! ## Applying transitions (src/connate/next_state.rs, apply side)

Child spawning is a fork(); the parent observes either a failure or the
new pid.  That outcome is external nondeterminism and is passed in as a
`fork : Option Int` oracle (none = fork failed, some pid = success).
Signals sent by apply_stopping / apply_force_down act on the outside
world, not on any service record, and have no bearing on the claims
settled here, so they are not recorded. -/

/-- The Restart→Up / Once→Down target rewrite appearing verbatim in
apply_down and apply_failed_or_retry in src/connate/next_state.rs. -/
def target_collapse (t : Target) : Target :=
  match t with
  | Target.Down | Target.Up => t
  | Target.Restart => Target.Up
  | Target.Once => Target.Down

/-- apply_down from src/connate/next_state.rs. -/
def apply_down (svc : Service) : Service :=
  { svc with target := target_collapse svc.target
           , state := State.Down
           , attempt_count := 0 }

/-- apply_waiting_to_start from src/connate/next_state.rs. -/
def apply_waiting_to_start (svc : Service) : Service :=
  { svc with state := State.WaitingToStart }

/-- apply_failed_or_retry from src/connate/next_state.rs: u32
saturating_add of attempt_count; Retrying unless max_attempt_count is
reached, else Failed plus the target rewrite. -/
def apply_failed_or_retry (svc : Service) : Service :=
  let ac := min (svc.attempt_count + 1) U32MAX
  match svc.cfg.max_attempt_count with
  | Option.none => { svc with attempt_count := ac, state := State.Retrying }
  | some mx =>
    if ac < mx then { svc with attempt_count := ac, state := State.Retrying }
    else { svc with attempt_count := ac
                  , state := State.Failed
                  , target := target_collapse svc.target }

/-- Service::spawn_setting_up from src/connate/spawn.rs: no-op when the
setup phase is Run::None, otherwise fork and record the pid (as
supervisor_pid when supervised). -/
def spawn_setting_up (svc : Service) (fork : Option Int) : Option Service :=
  match svc.cfg.setup with
  | Run.None => some svc
  | _ =>
    match fork with
    | Option.none => Option.none
    | some pid =>
      if svc.cfg.stop_all_children then some { svc with supervisor_pid := some pid }
      else some { svc with pid := some pid }

/-- Service::spawn_run from src/connate/spawn.rs: supervised when
stop_all_children or ready mode Daemonize. -/
def spawn_run (svc : Service) (fork : Option Int) : Option Service :=
  match svc.cfg.run with
  | Run.None => some svc
  | _ =>
    match fork with
    | Option.none => Option.none
    | some pid =>
      if svc.cfg.stop_all_children || svc.cfg.ready = Ready.Daemonize then
        some { svc with supervisor_pid := some pid }
      else some { svc with pid := some pid }

/-- Service::spawn_cleaning_up from src/connate/spawn.rs. -/
def spawn_cleaning_up (svc : Service) (fork : Option Int) : Option Service :=
  match svc.cfg.cleanup with
  | Run.None => some svc
  | _ =>
    match fork with
    | Option.none => Option.none
    | some pid =>
      if svc.cfg.stop_all_children then some { svc with supervisor_pid := some pid }
      else some { svc with pid := some pid }

/-- apply_setting_up from src/connate/next_state.rs. -/
def apply_setting_up (svc : Service) (fork : Option Int) : Service :=
  match spawn_setting_up svc fork with
  | some svc1 => { svc1 with state := State.SettingUp }
  | Option.none => apply_failed_or_retry svc

/-- apply_starting from src/connate/next_state.rs. -/
def apply_starting (svc : Service) (fork : Option Int) : Service :=
  match spawn_run svc fork with
  | some svc1 => { svc1 with state := State.Starting }
  | Option.none => apply_failed_or_retry svc

/-- apply_up from src/connate/next_state.rs. -/
def apply_up (svc : Service) : Service :=
  { svc with state := State.Up }

/-- apply_waiting_to_stop from src/connate/next_state.rs. -/
def apply_waiting_to_stop (svc : Service) : Service :=
  { svc with state := State.WaitingToStop }

/-- apply_stopping from src/connate/next_state.rs (the SIGTERM it sends
does not touch the record). -/
def apply_stopping (svc : Service) : Service :=
  { svc with state := State.Stopping }

/-- apply_cleaning_up from src/connate/next_state.rs. -/
def apply_cleaning_up (svc : Service) (fork : Option Int) : Service :=
  match spawn_cleaning_up svc fork with
  | some svc1 => { svc1 with state := State.CleaningUp }
  | Option.none => apply_failed_or_retry svc

/-- apply_force_down from src/connate/next_state.rs (signals only). -/
def apply_force_down (svc : Service) : Service :=
  { svc with state := State.ForceDown }

/-- apply_cannot_stop from src/connate/next_state.rs. -/
def apply_cannot_stop (svc : Service) : Service :=
  { svc with state := State.CannotStop }

/-- The first match in NextState::apply from src/connate/next_state.rs:
the per-variant record mutation (None and UpStable are handled by the
caller and map to the identity here). -/
def apply_variant (ns : NextState) (svc : Service) (fork : Option Int) : Service :=
  match ns with
  | NextState.Down => apply_down svc
  | NextState.WaitingToStart => apply_waiting_to_start svc
  | NextState.SettingUp => apply_setting_up svc fork
  | NextState.Starting => apply_starting svc fork
  | NextState.Up => apply_up svc
  | NextState.WaitingToStop => apply_waiting_to_stop svc
  | NextState.Stopping => apply_stopping svc
  | NextState.CleaningUp => apply_cleaning_up svc fork
  | NextState.FailedOrRetry => apply_failed_or_retry svc
  | NextState.ForceDown => apply_force_down svc
  | NextState.CannotStop => apply_cannot_stop svc
  | NextState.None => svc
  | NextState.UpStable => svc

/-- Mark the record at index j dirty (body of the propagate_dirty loop
in NextState::apply). -/
def set_dirty_at (svcs : List Service) (j : Nat) : List Service :=
  match svcs.get? j with
  | some s => svcs.set j { s with dirty := true }
  | Option.none => svcs

/-- NextState::apply from src/connate/next_state.rs: per-variant record
mutation, then for state-changing variants the common section (update
time, clear ready, set dirty, and mark every propagate_dirty index
dirty). -/
def NextState.apply (ns : NextState) (svcs : List Service) (i : Nat) (now : Timespec)
    (fork : Option Int) : List Service :=
  match svcs.get? i with
  | Option.none => svcs
  | some svc =>
    match ns with
    | NextState.None => svcs.set i { svc with dirty := false }
    | NextState.UpStable => svcs.set i { svc with dirty := false, attempt_count := 0 }
    | _ =>
      let svc2 := { apply_variant ns svc fork with time := now, ready := false, dirty := true }
      svc.cfg.propagate_dirty.foldl set_dirty_at (svcs.set i svc2)

/-! ## General lemmas -/

/-- A dependency-list check of the shape used by needs/wants/conflicts
holds iff the predicate holds at every valid index of the list. -/
theorem all_get_iff (l : List Nat) (svcs : List Service) (p : Service → Prop)
    [DecidablePred p] :
    ((l.all fun i =>
      match svcs.get? i with
      | some dep => decide (p dep)
      | Option.none => true) = true) ↔
      (∀ j ∈ l, ∀ dep, svcs.get? j = some dep → p dep) := by
  rw [List.all_eq_true]
  constructor
  · intro h j hj dep hdep
    have hb := h j hj
    rw [hdep] at hb
    exact of_decide_eq_true hb
  · intro h j hj
    cases hget : svcs.get? j with
    | none => rfl
    | some dep =>
      exact decide_eq_true (h j hj dep hget)

/-- start_dep_satisfied spelled out as the three quantified conditions. -/
theorem start_dep_satisfied_iff (svc : Service) (svcs : List Service) :
    start_dep_satisfied svc svcs = true ↔
      ((∀ j ∈ svc.cfg.needs, ∀ dep, svcs.get? j = some dep → dep.state = State.Up) ∧
       (∀ j ∈ svc.cfg.wants, ∀ dep, svcs.get? j = some dep →
          dep.state = State.Up ∨ dep.state = State.Failed ∨ dep.state = State.CannotStop) ∧
       (∀ j ∈ svc.cfg.conflicts, ∀ dep, svcs.get? j = some dep →
          dep.state = State.Down ∨ dep.state = State.Failed)) := by
  rw [start_dep_satisfied, Bool.and_eq_true, Bool.and_eq_true]
  rw [needs_satisfied, wants_satisfied, conflicts_satisfied]
  rw [all_get_iff, all_get_iff, all_get_iff]
  tauto

/-! ## Concrete fixtures used by witness theorems -/

/-- A minimal service configuration used to build concrete witnesses. -/
def cfgW : ServiceConfig :=
  { name := [97]
  , init_target := Target.Down
  , needs := []
  , wants := []
  , conflicts := []
  , stop_dependencies := []
  , groups := []
  , target_up_propagate_up := []
  , target_up_propagate_down := []
  , target_down_propagate_down := []
  , propagate_dirty := []
  , setup := Run.None
  , run := Run.Exec
  , ready := Ready.Immediately
  , cleanup := Run.None
  , stop_all_children := false
  , max_setup_time_millis := Option.none
  , max_ready_time_millis := Option.none
  , max_stop_time_millis := Option.none
  , max_cleanup_time_millis := Option.none
  , retry_wait_period_millis := 100
  , retry_wait_multiplier := 2
  , max_attempt_count := some 3
  , is_logger := false }

/-- A concrete service record used to build concrete witnesses. -/
def svcW : Service :=
  { state := State.WaitingToStart
  , target := Target.Up
  , pid := Option.none
  , supervisor_pid := Option.none
  , stdin_pipe := Option.none
  , attempt_count := 0
  , exit_code := Option.none
  , time := { tv_sec := 0, tv_nsec := 0 }
  , ready := false
  , dirty := true
  , settle_pipe := Option.none
  , cfg := cfgW }

/-! ## Claim C1 -/

/-- Claim C1: a WaitingToStart service with upward target and no child
process moves to SettingUp exactly when all needs are Up, all wants are
Up/Failed/CannotStop and all conflicts are Down/Failed; otherwise the
transition function yields None (the service stays in WaitingToStart). -/
theorem C1_waiting_to_start_gate
    (svcs : List Service) (i : Nat) (svc : Service) (now : Timespec)
    (hget : svcs.get? i = some svc)
    (hstate : svc.state = State.WaitingToStart)
    (htgt : svc.target = Target.Up ∨ svc.target = Target.Once)
    (hpid : svc.pid = Option.none)
    (hsup : svc.supervisor_pid = Option.none) :
    (NextState.new svcs i now = NextState.SettingUp ↔
      ((∀ j ∈ svc.cfg.needs, ∀ dep, svcs.get? j = some dep → dep.state = State.Up) ∧
       (∀ j ∈ svc.cfg.wants, ∀ dep, svcs.get? j = some dep →
          dep.state = State.Up ∨ dep.state = State.Failed ∨ dep.state = State.CannotStop) ∧
       (∀ j ∈ svc.cfg.conflicts, ∀ dep, svcs.get? j = some dep →
          dep.state = State.Down ∨ dep.state = State.Failed))) ∧
    (NextState.new svcs i now = NextState.SettingUp ∨
     NextState.new svcs i now = NextState.None) := by
  have hp : svc.has_pid = false := by
    rw [Service.has_pid, hpid, hsup]
    rfl
  have hnew : NextState.new svcs i now = NextState.from_waiting_to_start svc svcs := by
    simp only [NextState.new, hget, hstate]
  rw [hnew, NextState.from_waiting_to_start, hp]
  rw [← start_dep_satisfied_iff]
  cases hs : start_dep_satisfied svc svcs with
  | true =>
    rcases htgt with ht | ht <;> rw [ht] <;> simp
  | false =>
    rcases htgt with ht | ht <;> rw [ht] <;> simp

/-- get? after set, in if-form. -/
theorem list_get?_set {α : Type} (l : List α) (j m : Nat) (a : α) :
    (l.set j a).get? m = if m = j then (l.get? m).map (fun _ => a) else l.get? m := by
  simp only [List.get?_eq_getElem?, List.getElem?_set]
  by_cases h : j = m
  · subst h
    rw [if_pos rfl, if_pos rfl]
    by_cases hl : j < l.length
    · rw [if_pos hl, List.getElem?_eq_getElem hl]
      rfl
    · rw [if_neg hl, List.getElem?_eq_none (by omega)]
      rfl
  · rw [if_neg h, if_neg fun hh => h hh.symm]

/-- get? after set_dirty_at. -/
theorem set_dirty_at_get? (l : List Service) (j m : Nat) :
    (set_dirty_at l j).get? m =
      (l.get? m).map (fun s => if m = j then { s with dirty := true } else s) := by
  simp only [set_dirty_at]
  split
  · rename_i s hj
    rw [list_get?_set]
    by_cases hmj : m = j
    · subst hmj
      rw [if_pos rfl, hj]
      simp
    · rw [if_neg hmj]
      cases hm : l.get? m with
      | none => rfl
      | some t => simp [hmj]
  · rename_i hj
    cases hm : l.get? m with
    | none => rfl
    | some t =>
      have hne : m ≠ j := by
        intro h
        subst h
        rw [hj] at hm
        exact Option.noConfusion hm
      simp [hne]

/-- get? after folding set_dirty_at over an index list. -/
theorem fold_set_dirty_get? (idxs : List Nat) (l : List Service) (m : Nat) :
    (idxs.foldl set_dirty_at l).get? m =
      (l.get? m).map (fun s => if m ∈ idxs then { s with dirty := true } else s) := by
  induction idxs generalizing l with
  | nil =>
    rw [List.foldl_nil]
    cases hm : l.get? m with
    | none => simp
    | some s => simp
  | cons j rest ih =>
    rw [List.foldl_cons, ih, set_dirty_at_get?, Option.map_map]
    cases hm : l.get? m with
    | none => rfl
    | some s =>
      simp only [Option.map_some', Option.some.injEq, Function.comp]
      by_cases hmj : m = j
      · subst hmj
        by_cases hr : m ∈ rest <;> simp [hr, List.mem_cons]
      · by_cases hr : m ∈ rest <;> simp [hr, hmj, List.mem_cons]

/-- apply_failed_or_retry always increments attempt_count by one,
saturating at U32MAX. -/
theorem apply_failed_or_retry_attempt (svc : Service) :
    (apply_failed_or_retry svc).attempt_count = min (svc.attempt_count + 1) U32MAX := by
  rw [apply_failed_or_retry]
  cases svc.cfg.max_attempt_count with
  | none => rfl
  | some mx =>
    by_cases h : min (svc.attempt_count + 1) U32MAX < mx <;> simp [h]

/-- Besides attempt_count, apply_failed_or_retry changes only state and
target. -/
theorem apply_failed_or_retry_state (svc : Service) :
    (apply_failed_or_retry svc).state = State.Retrying ∨
      ((apply_failed_or_retry svc).state = State.Failed ∧
       (apply_failed_or_retry svc).target = target_collapse svc.target) := by
  rw [apply_failed_or_retry]
  cases svc.cfg.max_attempt_count with
  | none => exact Or.inl rfl
  | some mx =>
    by_cases h : min (svc.attempt_count + 1) U32MAX < mx
    · exact Or.inl (by simp [h])
    · exact Or.inr (by simp [h])

/-- A successful spawn_setting_up only changes pid / supervisor_pid. -/
theorem spawn_setting_up_frame (svc svc1 : Service) (fork : Option Int)
    (h : spawn_setting_up svc fork = some svc1) :
    ∃ p q, svc1 = { svc with pid := p, supervisor_pid := q } := by
  rw [spawn_setting_up.eq_def] at h
  split at h
  · cases h
    exact ⟨svc.pid, svc.supervisor_pid, rfl⟩
  · split at h
    · cases h
    · split at h
      · cases h
        exact ⟨svc.pid, some _, rfl⟩
      · cases h
        exact ⟨some _, svc.supervisor_pid, rfl⟩

/-- A successful spawn_run only changes pid / supervisor_pid. -/
theorem spawn_run_frame (svc svc1 : Service) (fork : Option Int)
    (h : spawn_run svc fork = some svc1) :
    ∃ p q, svc1 = { svc with pid := p, supervisor_pid := q } := by
  rw [spawn_run.eq_def] at h
  split at h
  · cases h
    exact ⟨svc.pid, svc.supervisor_pid, rfl⟩
  · split at h
    · cases h
    · split at h
      · cases h
        exact ⟨svc.pid, some _, rfl⟩
      · cases h
        exact ⟨some _, svc.supervisor_pid, rfl⟩

/-- A successful spawn_cleaning_up only changes pid / supervisor_pid. -/
theorem spawn_cleaning_up_frame (svc svc1 : Service) (fork : Option Int)
    (h : spawn_cleaning_up svc fork = some svc1) :
    ∃ p q, svc1 = { svc with pid := p, supervisor_pid := q } := by
  rw [spawn_cleaning_up.eq_def] at h
  split at h
  · cases h
    exact ⟨svc.pid, svc.supervisor_pid, rfl⟩
  · split at h
    · cases h
    · split at h
      · cases h
        exact ⟨svc.pid, some _, rfl⟩
      · cases h
        exact ⟨some _, svc.supervisor_pid, rfl⟩

/-- Only the Down record mutation zeroes attempt_count. -/
theorem apply_variant_attempt_zero (svc : Service) (fork : Option Int) :
    (apply_variant NextState.Down svc fork).attempt_count = 0 := rfl

/-- A per-variant record mutation other than Down never lowers
attempt_count (attempt_count is a u32, hence the range hypothesis). -/
theorem apply_variant_attempt_mono (ns : NextState) (svc : Service) (fork : Option Int)
    (hrange : svc.attempt_count ≤ U32MAX) (h : ns ≠ NextState.Down) :
    svc.attempt_count ≤ (apply_variant ns svc fork).attempt_count := by
  have hU : U32MAX = 4294967295 := by decide
  have hfr : svc.attempt_count ≤ (apply_failed_or_retry svc).attempt_count := by
    rw [apply_failed_or_retry_attempt, Nat.min_def]
    split <;> omega
  cases ns with
  | Down => exact absurd rfl h
  | SettingUp =>
    show svc.attempt_count ≤ (apply_setting_up svc fork).attempt_count
    rw [apply_setting_up]
    cases hsp : spawn_setting_up svc fork with
    | none => exact hfr
    | some svc1 =>
      obtain ⟨p, q, rfl⟩ := spawn_setting_up_frame svc svc1 fork hsp
      exact le_refl _
  | Starting =>
    show svc.attempt_count ≤ (apply_starting svc fork).attempt_count
    rw [apply_starting]
    cases hsp : spawn_run svc fork with
    | none => exact hfr
    | some svc1 =>
      obtain ⟨p, q, rfl⟩ := spawn_run_frame svc svc1 fork hsp
      exact le_refl _
  | CleaningUp =>
    show svc.attempt_count ≤ (apply_cleaning_up svc fork).attempt_count
    rw [apply_cleaning_up]
    cases hsp : spawn_cleaning_up svc fork with
    | none => exact hfr
    | some svc1 =>
      obtain ⟨p, q, rfl⟩ := spawn_cleaning_up_frame svc svc1 fork hsp
      exact le_refl _
  | FailedOrRetry => exact hfr
  | WaitingToStart => exact le_refl _
  | Up => exact le_refl _
  | WaitingToStop => exact le_refl _
  | Stopping => exact le_refl _
  | ForceDown => exact le_refl _
  | CannotStop => exact le_refl _
  | None => exact le_refl _
  | UpStable => exact le_refl _

/-- A per-variant record mutation other than Down keeps a positive
attempt_count positive (no range hypothesis needed: saturation keeps the
incremented counter at least 1). -/
theorem apply_variant_attempt_pos (ns : NextState) (svc : Service) (fork : Option Int)
    (h : ns ≠ NextState.Down) (hc : 0 < svc.attempt_count) :
    0 < (apply_variant ns svc fork).attempt_count := by
  have hU : U32MAX = 4294967295 := by decide
  have hfr : 0 < (apply_failed_or_retry svc).attempt_count := by
    rw [apply_failed_or_retry_attempt, Nat.min_def]
    split <;> omega
  cases ns with
  | Down => exact absurd rfl h
  | SettingUp =>
    show 0 < (apply_setting_up svc fork).attempt_count
    rw [apply_setting_up]
    cases hsp : spawn_setting_up svc fork with
    | none => exact hfr
    | some svc1 =>
      obtain ⟨p, q, rfl⟩ := spawn_setting_up_frame svc svc1 fork hsp
      exact hc
  | Starting =>
    show 0 < (apply_starting svc fork).attempt_count
    rw [apply_starting]
    cases hsp : spawn_run svc fork with
    | none => exact hfr
    | some svc1 =>
      obtain ⟨p, q, rfl⟩ := spawn_run_frame svc svc1 fork hsp
      exact hc
  | CleaningUp =>
    show 0 < (apply_cleaning_up svc fork).attempt_count
    rw [apply_cleaning_up]
    cases hsp : spawn_cleaning_up svc fork with
    | none => exact hfr
    | some svc1 =>
      obtain ⟨p, q, rfl⟩ := spawn_cleaning_up_frame svc svc1 fork hsp
      exact hc
  | FailedOrRetry => exact hfr
  | WaitingToStart => exact hc
  | Up => exact hc
  | WaitingToStop => exact hc
  | Stopping => exact hc
  | ForceDown => exact hc
  | CannotStop => exact hc
  | None => exact hc
  | UpStable => exact hc

/-- get? at the set index when the index is valid. -/
theorem list_get?_set_self {α : Type} (l : List α) (i : Nat) (a b : α)
    (h : l.get? i = some b) : (l.set i a).get? i = some a := by
  rw [list_get?_set, if_pos rfl, h]
  rfl

/-- Folding set_dirty_at does not change a record that is already dirty. -/
theorem fold_set_dirty_get?_self (idxs : List Nat) (l : List Service) (i : Nat)
    (svc : Service) (h : l.get? i = some svc) (hd : svc.dirty = true) :
    (idxs.foldl set_dirty_at l).get? i = some svc := by
  rw [fold_set_dirty_get?, h]
  simp only [Option.map_some', Option.some.injEq]
  cases svc
  cases hd
  split <;> rfl

/-- The record at the transitioned index after NextState::apply. -/
theorem apply_get_self (ns : NextState) (svcs : List Service) (i : Nat) (now : Timespec)
    (fork : Option Int) (svc : Service) (hget : svcs.get? i = some svc) :
    (ns.apply svcs i now fork).get? i = some
      (match ns with
       | NextState.None => { svc with dirty := false }
       | NextState.UpStable => { svc with dirty := false, attempt_count := 0 }
       | _ => { apply_variant ns svc fork with time := now, ready := false, dirty := true }) := by
  cases ns <;> simp only [NextState.apply, hget] <;>
    first
      | exact list_get?_set_self _ _ _ _ hget
      | exact fold_set_dirty_get?_self _ _ _ _ (list_get?_set_self _ _ _ _ hget) rfl

/-- Records other than the transitioned one are at most re-marked dirty
by NextState::apply. -/
theorem apply_get_other (ns : NextState) (svcs : List Service) (i : Nat) (now : Timespec)
    (fork : Option Int) (j : Nat) (hne : j ≠ i) (svcj : Service)
    (hgetj : svcs.get? j = some svcj) :
    ∃ s', (ns.apply svcs i now fork).get? j = some s' ∧
      (s' = svcj ∨ s' = { svcj with dirty := true }) := by
  cases hgi : svcs.get? i with
  | none =>
    refine ⟨svcj, ?_, Or.inl rfl⟩
    simp only [NextState.apply, hgi]
    exact hgetj
  | some svc =>
    cases ns <;> simp only [NextState.apply, hgi] <;>
      first
        | (refine ⟨svcj, ?_, Or.inl rfl⟩
           rw [list_get?_set, if_neg hne]
           exact hgetj)
        | (rw [fold_set_dirty_get?, list_get?_set, if_neg hne, hgetj]
           simp only [Option.map_some']
           by_cases hm : j ∈ svc.cfg.propagate_dirty
           · rw [if_pos hm]
             exact ⟨_, rfl, Or.inr rfl⟩
           · rw [if_neg hm]
             exact ⟨_, rfl, Or.inl rfl⟩)

/-- The transition function yields UpStable only from a service that is
Up, has a positive attempt_count and has been Up for the whole up-stable
window. -/
theorem new_upstable_inversion (svcs : List Service) (i : Nat) (now : Timespec)
    (svc : Service) (hget : svcs.get? i = some svc)
    (hup : NextState.new svcs i now = NextState.UpStable) :
    svc.state = State.Up ∧ 0 < svc.attempt_count ∧
      UP_TIME_MILLIS ≤ now.millisSince svc.time := by
  simp only [NextState.new, hget] at hup
  cases hst : svc.state <;>
    simp only [hst, NextState.from_down, NextState.from_waiting_to_start,
      NextState.from_setting_up, NextState.from_starting, NextState.from_up,
      NextState.from_waiting_to_stop, NextState.from_stopping, NextState.from_cleaning_up,
      NextState.from_forced_down, NextState.from_retrying, NextState.from_failed,
      NextState.from_cannot_stop, up_time_elapsed] at hup <;>
    (repeat' (split at hup)) <;> simp_all

/-! ## Claim C7 -/

/-- Claim C7: across every transition of the state machine,
attempt_count becomes 0 only through the Down mutation or the UpStable
mutation (and those two do zero it); every other transition never
decreases it; the transition function emits UpStable only for a service
sitting in Up with positive attempt_count past the 1000 ms up-stable
window; and the transition of service i never touches any other
record's attempt_count. -/
theorem C7_attempt_count_transitions
    (ns : NextState) (svcs : List Service) (i : Nat) (now : Timespec) (fork : Option Int)
    (svc svc' : Service)
    (hget : svcs.get? i = some svc)
    (hrange : svc.attempt_count ≤ U32MAX)
    (hget' : (NextState.apply ns svcs i now fork).get? i = some svc') :
    ((svc'.attempt_count = 0 ∧ svc.attempt_count ≠ 0) →
        (ns = NextState.Down ∨ ns = NextState.UpStable)) ∧
    ((ns ≠ NextState.Down ∧ ns ≠ NextState.UpStable) →
        svc.attempt_count ≤ svc'.attempt_count) ∧
    ((ns = NextState.Down ∨ ns = NextState.UpStable) → svc'.attempt_count = 0) ∧
    (NextState.new svcs i now = NextState.UpStable →
        svc.state = State.Up ∧ 0 < svc.attempt_count ∧
          UP_TIME_MILLIS ≤ now.millisSince svc.time) ∧
    (∀ j svcj svcj', j ≠ i → svcs.get? j = some svcj →
        (NextState.apply ns svcs i now fork).get? j = some svcj' →
        svcj'.attempt_count = svcj.attempt_count) := by
  have hD : ∀ j svcj svcj', j ≠ i → svcs.get? j = some svcj →
      (NextState.apply ns svcs i now fork).get? j = some svcj' →
      svcj'.attempt_count = svcj.attempt_count := by
    intro j svcj svcj' hne hj hj'
    obtain ⟨s', hs', hc⟩ := apply_get_other ns svcs i now fork j hne svcj hj
    rw [hs'] at hj'
    have heq := (Option.some.injEq _ _).mp hj'
    subst heq
    rcases hc with rfl | rfl <;> rfl
  have hInv := new_upstable_inversion svcs i now svc hget
  have hget2 := hget'
  clear hget'
  cases ns with
  | Down =>
    rw [apply_get_self NextState.Down svcs i now fork svc hget] at hget2
    have hsvc2 := (Option.some.injEq _ _).mp hget2
    subst hsvc2
    exact ⟨fun _ => Or.inl rfl, fun h => absurd rfl h.1, fun _ => rfl, hInv, hD⟩
  | UpStable =>
    rw [apply_get_self NextState.UpStable svcs i now fork svc hget] at hget2
    have hsvc2 := (Option.some.injEq _ _).mp hget2
    subst hsvc2
    exact ⟨fun _ => Or.inr rfl, fun h => absurd rfl h.2, fun _ => rfl, hInv, hD⟩
  | None =>
    rw [apply_get_self NextState.None svcs i now fork svc hget] at hget2
    have hsvc2 := (Option.some.injEq _ _).mp hget2
    subst hsvc2
    refine ⟨fun h => absurd h.1 h.2, fun _ => le_refl _, fun h => ?_, hInv, hD⟩
    rcases h with h | h <;> cases h
  | WaitingToStart =>
    rw [apply_get_self NextState.WaitingToStart svcs i now fork svc hget] at hget2
    have hsvc2 := (Option.some.injEq _ _).mp hget2
    subst hsvc2
    refine ⟨fun h => ?_, fun _ => ?_, fun h => ?_, hInv, hD⟩
    · have hpos := apply_variant_attempt_pos NextState.WaitingToStart svc fork
        (by intro hh; cases hh) (Nat.pos_of_ne_zero h.2)
      have hz : (apply_variant NextState.WaitingToStart svc fork).attempt_count = 0 := h.1
      omega
    · exact apply_variant_attempt_mono NextState.WaitingToStart svc fork hrange (by intro hh; cases hh)
    · rcases h with h | h <;> cases h
  | SettingUp =>
    rw [apply_get_self NextState.SettingUp svcs i now fork svc hget] at hget2
    have hsvc2 := (Option.some.injEq _ _).mp hget2
    subst hsvc2
    refine ⟨fun h => ?_, fun _ => ?_, fun h => ?_, hInv, hD⟩
    · have hpos := apply_variant_attempt_pos NextState.SettingUp svc fork
        (by intro hh; cases hh) (Nat.pos_of_ne_zero h.2)
      have hz : (apply_variant NextState.SettingUp svc fork).attempt_count = 0 := h.1
      omega
    · exact apply_variant_attempt_mono NextState.SettingUp svc fork hrange (by intro hh; cases hh)
    · rcases h with h | h <;> cases h
  | Starting =>
    rw [apply_get_self NextState.Starting svcs i now fork svc hget] at hget2
    have hsvc2 := (Option.some.injEq _ _).mp hget2
    subst hsvc2
    refine ⟨fun h => ?_, fun _ => ?_, fun h => ?_, hInv, hD⟩
    · have hpos := apply_variant_attempt_pos NextState.Starting svc fork
        (by intro hh; cases hh) (Nat.pos_of_ne_zero h.2)
      have hz : (apply_variant NextState.Starting svc fork).attempt_count = 0 := h.1
      omega
    · exact apply_variant_attempt_mono NextState.Starting svc fork hrange (by intro hh; cases hh)
    · rcases h with h | h <;> cases h
  | Up =>
    rw [apply_get_self NextState.Up svcs i now fork svc hget] at hget2
    have hsvc2 := (Option.some.injEq _ _).mp hget2
    subst hsvc2
    refine ⟨fun h => ?_, fun _ => ?_, fun h => ?_, hInv, hD⟩
    · have hpos := apply_variant_attempt_pos NextState.Up svc fork
        (by intro hh; cases hh) (Nat.pos_of_ne_zero h.2)
      have hz : (apply_variant NextState.Up svc fork).attempt_count = 0 := h.1
      omega
    · exact apply_variant_attempt_mono NextState.Up svc fork hrange (by intro hh; cases hh)
    · rcases h with h | h <;> cases h
  | WaitingToStop =>
    rw [apply_get_self NextState.WaitingToStop svcs i now fork svc hget] at hget2
    have hsvc2 := (Option.some.injEq _ _).mp hget2
    subst hsvc2
    refine ⟨fun h => ?_, fun _ => ?_, fun h => ?_, hInv, hD⟩
    · have hpos := apply_variant_attempt_pos NextState.WaitingToStop svc fork
        (by intro hh; cases hh) (Nat.pos_of_ne_zero h.2)
      have hz : (apply_variant NextState.WaitingToStop svc fork).attempt_count = 0 := h.1
      omega
    · exact apply_variant_attempt_mono NextState.WaitingToStop svc fork hrange (by intro hh; cases hh)
    · rcases h with h | h <;> cases h
  | Stopping =>
    rw [apply_get_self NextState.Stopping svcs i now fork svc hget] at hget2
    have hsvc2 := (Option.some.injEq _ _).mp hget2
    subst hsvc2
    refine ⟨fun h => ?_, fun _ => ?_, fun h => ?_, hInv, hD⟩
    · have hpos := apply_variant_attempt_pos NextState.Stopping svc fork
        (by intro hh; cases hh) (Nat.pos_of_ne_zero h.2)
      have hz : (apply_variant NextState.Stopping svc fork).attempt_count = 0 := h.1
      omega
    · exact apply_variant_attempt_mono NextState.Stopping svc fork hrange (by intro hh; cases hh)
    · rcases h with h | h <;> cases h
  | CleaningUp =>
    rw [apply_get_self NextState.CleaningUp svcs i now fork svc hget] at hget2
    have hsvc2 := (Option.some.injEq _ _).mp hget2
    subst hsvc2
    refine ⟨fun h => ?_, fun _ => ?_, fun h => ?_, hInv, hD⟩
    · have hpos := apply_variant_attempt_pos NextState.CleaningUp svc fork
        (by intro hh; cases hh) (Nat.pos_of_ne_zero h.2)
      have hz : (apply_variant NextState.CleaningUp svc fork).attempt_count = 0 := h.1
      omega
    · exact apply_variant_attempt_mono NextState.CleaningUp svc fork hrange (by intro hh; cases hh)
    · rcases h with h | h <;> cases h
  | ForceDown =>
    rw [apply_get_self NextState.ForceDown svcs i now fork svc hget] at hget2
    have hsvc2 := (Option.some.injEq _ _).mp hget2
    subst hsvc2
    refine ⟨fun h => ?_, fun _ => ?_, fun h => ?_, hInv, hD⟩
    · have hpos := apply_variant_attempt_pos NextState.ForceDown svc fork
        (by intro hh; cases hh) (Nat.pos_of_ne_zero h.2)
      have hz : (apply_variant NextState.ForceDown svc fork).attempt_count = 0 := h.1
      omega
    · exact apply_variant_attempt_mono NextState.ForceDown svc fork hrange (by intro hh; cases hh)
    · rcases h with h | h <;> cases h
  | FailedOrRetry =>
    rw [apply_get_self NextState.FailedOrRetry svcs i now fork svc hget] at hget2
    have hsvc2 := (Option.some.injEq _ _).mp hget2
    subst hsvc2
    refine ⟨fun h => ?_, fun _ => ?_, fun h => ?_, hInv, hD⟩
    · have hpos := apply_variant_attempt_pos NextState.FailedOrRetry svc fork
        (by intro hh; cases hh) (Nat.pos_of_ne_zero h.2)
      have hz : (apply_variant NextState.FailedOrRetry svc fork).attempt_count = 0 := h.1
      omega
    · exact apply_variant_attempt_mono NextState.FailedOrRetry svc fork hrange (by intro hh; cases hh)
    · rcases h with h | h <;> cases h
  | CannotStop =>
    rw [apply_get_self NextState.CannotStop svcs i now fork svc hget] at hget2
    have hsvc2 := (Option.some.injEq _ _).mp hget2
    subst hsvc2
    refine ⟨fun h => ?_, fun _ => ?_, fun h => ?_, hInv, hD⟩
    · have hpos := apply_variant_attempt_pos NextState.CannotStop svc fork
        (by intro hh; cases hh) (Nat.pos_of_ne_zero h.2)
      have hz : (apply_variant NextState.CannotStop svc fork).attempt_count = 0 := h.1
      omega
    · exact apply_variant_attempt_mono NextState.CannotStop svc fork hrange (by intro hh; cases hh)
    · rcases h with h | h <;> cases h

/-- A concrete reference instant for witnesses. -/
def tsW : Timespec := { tv_sec := 7, tv_nsec := 0 }

/-- Witness for C1: a single service with no dependencies, waiting to
start with target Up, is released to SettingUp. -/
theorem C1_witness :
    (NextState.new [svcW] 0 tsW = NextState.SettingUp ↔
      ((∀ j ∈ svcW.cfg.needs, ∀ dep, [svcW].get? j = some dep → dep.state = State.Up) ∧
       (∀ j ∈ svcW.cfg.wants, ∀ dep, [svcW].get? j = some dep →
          dep.state = State.Up ∨ dep.state = State.Failed ∨ dep.state = State.CannotStop) ∧
       (∀ j ∈ svcW.cfg.conflicts, ∀ dep, [svcW].get? j = some dep →
          dep.state = State.Down ∨ dep.state = State.Failed))) ∧
    (NextState.new [svcW] 0 tsW = NextState.SettingUp ∨
     NextState.new [svcW] 0 tsW = NextState.None) :=
  C1_waiting_to_start_gate [svcW] 0 svcW tsW rfl rfl (Or.inl rfl) rfl rfl

/-- The record produced by applying the Down transition to svcW at tsW. -/
def svcDW : Service :=
  { apply_down svcW with time := tsW, ready := false, dirty := true }

/-- Witness for C7: the Down transition applied to the witness service. -/
theorem C7_witness :
    ((svcDW.attempt_count = 0 ∧ svcW.attempt_count ≠ 0) →
        (NextState.Down = NextState.Down ∨ NextState.Down = NextState.UpStable)) ∧
    ((NextState.Down ≠ NextState.Down ∧ NextState.Down ≠ NextState.UpStable) →
        svcW.attempt_count ≤ svcDW.attempt_count) ∧
    ((NextState.Down = NextState.Down ∨ NextState.Down = NextState.UpStable) →
        svcDW.attempt_count = 0) ∧
    (NextState.new [svcW] 0 tsW = NextState.UpStable →
        svcW.state = State.Up ∧ 0 < svcW.attempt_count ∧
          UP_TIME_MILLIS ≤ tsW.millisSince svcW.time) ∧
    (∀ j svcj svcj', j ≠ 0 → [svcW].get? j = some svcj →
        (NextState.apply NextState.Down [svcW] 0 tsW Option.none).get? j = some svcj' →
        svcj'.attempt_count = svcj.attempt_count) :=
  C7_attempt_count_transitions NextState.Down [svcW] 0 tsW Option.none svcW svcDW
    rfl (by decide) rfl

/-! ## Wait status decoding (src/syscall/waitpid.rs, src/connate/handle_signal.rs)

Wait statuses delivered by the kernel are non-negative; the status word
is modelled as a Nat, with the C bit operations written as division and
remainder (status & 0x7f = status % 128, (status >> 8) & 0xff =
status / 256 % 256). -/

/-- wexitstatus from src/syscall/waitpid.rs: (status >> 8) & 0xff. -/
def wexitstatus (status : Nat) : Nat := status / 256 % 256

/-- wifexited from src/syscall/waitpid.rs: (status & 0x7f) == 0. -/
def wifexited (status : Nat) : Bool := status % 128 = 0

/-- Interpretation of a Nat as the i8 cast in wifsignaled. -/
def as_i8 (n : Nat) : Int :=
  if n % 256 < 128 then (n % 256 : Int) else (n % 256 : Int) - 256

/-- wifsignaled from src/syscall/waitpid.rs:
((status & 0x7f) + 1) as i8 >= 2. -/
def wifsignaled (status : Nat) : Bool := decide (2 ≤ as_i8 (status % 128 + 1))

/-- wtermsig from src/syscall/waitpid.rs: status & 0x7f. -/
def wtermsig (status : Nat) : Nat := status % 128

/-- The exit-code computation at the top of the reap loop in
handle_sigchld (src/connate/handle_signal.rs): WIFEXITED gives the exit
status, WIFSIGNALED gives 128 + signal, and any other status is skipped
with `continue`, recording nothing. -/
def sigchld_exit_code (status : Nat) : Option Int :=
  if wifexited status then some (wexitstatus status)
  else if wifsignaled status then some (128 + wtermsig status)
  else Option.none

/-- One iteration of the handle_sigchld reap loop for a reaped
(pid, status) pair (src/connate/handle_signal.rs): on a recognized
status, clear the pid (and supervisor_pid when matched through it),
record the exit code, set dirty and drop the stdin pipe; otherwise
`continue` without touching the table. -/
def reap_one (svcs : List Service) (pid : Int) (status : Nat) : List Service :=
  match sigchld_exit_code status with
  | Option.none => svcs
  | some ec =>
    match svcs.findIdx? (fun s => s.pid = some pid) with
    | some j =>
      match svcs.get? j with
      | some svc =>
        svcs.set j { svc with pid := Option.none, exit_code := some ec
                            , dirty := true, stdin_pipe := Option.none }
      | Option.none => svcs
    | Option.none =>
      match svcs.findIdx? (fun s => s.supervisor_pid = some pid) with
      | some j =>
        match svcs.get? j with
        | some svc =>
          svcs.set j { svc with pid := Option.none, supervisor_pid := Option.none
                              , exit_code := some ec, dirty := true
                              , stdin_pipe := Option.none }
        | Option.none => svcs
      | Option.none => svcs

/-! ## Claim C9 -/

/-- Claim C9 counterexample: for the wait status 0x137f (a child
stopped by SIGSTOP, the "other" case: neither WIFEXITED nor
WIFSIGNALED), the server records no exit code at all and leaves the
table untouched, instead of recording the raw status value 4991 as the
claim states. -/
theorem C9_counterexample :
    sigchld_exit_code 4991 = Option.none ∧
    sigchld_exit_code 4991 ≠ some 4991 ∧
    wifexited 4991 = false ∧ wifsignaled 4991 = false ∧
    reap_one [svcW] 3 4991 = [svcW] := by
  refine ⟨by decide, by decide, by decide, by decide, ?_⟩
  rfl

/-- Claim C9 (amended): the exit code recorded for a reaped status is
its exit status when WIFEXITED (low seven bits zero), 128 plus the
terminating signal when WIFSIGNALED (low seven bits in 1..126), and in
every other case (low seven bits all ones, i.e. stopped/continued) the
status is ignored and no exit code is recorded. -/
theorem C9_exit_code_encoding (status : Nat) :
    (status % 128 = 0 →
        sigchld_exit_code status = some (((status / 256 % 256 : Nat) : Int))) ∧
    ((1 ≤ status % 128 ∧ status % 128 ≤ 126) →
        sigchld_exit_code status = some (128 + ((status % 128 : Nat) : Int))) ∧
    (status % 128 = 127 → sigchld_exit_code status = Option.none) := by
  have h128 : status % 128 < 128 := Nat.mod_lt _ (by omega)
  refine ⟨?_, ?_, ?_⟩
  · intro h
    rw [sigchld_exit_code, if_pos]
    · rfl
    · rw [wifexited]
      exact decide_eq_true h
  · intro h
    have hne : ¬(wifexited status = true) := by
      rw [wifexited]
      simp only [decide_eq_true_eq]
      omega
    have hsig : wifsignaled status = true := by
      rw [wifsignaled, as_i8]
      have hlt : status % 128 + 1 < 256 := by omega
      rw [Nat.mod_eq_of_lt hlt, if_pos (by omega : status % 128 + 1 < 128)]
      simp only [decide_eq_true_eq]
      omega
    rw [sigchld_exit_code, if_neg hne, if_pos hsig, wtermsig]
  · intro h
    have hne : ¬(wifexited status = true) := by
      rw [wifexited]
      simp only [decide_eq_true_eq]
      omega
    have hsig : ¬(wifsignaled status = true) := by
      rw [wifsignaled, as_i8, h]
      norm_num
    rw [sigchld_exit_code, if_neg hne, if_neg hsig]

/-! ## Request handling (src/connate/handle_request.rs) -/

/-- Response from src/ipc/response.rs, restricted to the variants the
claims need. -/
inductive Response
  | Okay
  | Failed
  | ServiceNotFound
  | FieldIsNone
  | InvalidRequest
deriving DecidableEq, Repr

/-- Modelled from the spec: find_by_name comes from the build-generated
config (src/internal.rs includes the generated file, which is not part
of the sources).  Per the spec each service has a unique byte-string
name and the table is a fixed array, so the lookup returns the first
index whose configured name equals the requested one. -/
def find_by_name (svcs : List Service) (name : List Nat) : Option Nat :=
  svcs.findIdx? (fun s => s.cfg.name = name)

/-- The Request::ServiceStarting arm of handle_request
(src/connate/handle_request.rs): pid < 2 is rejected with
InvalidRequest and no mutation; otherwise the pid is recorded and the
record marked dirty. -/
def handle_service_starting (svcs : List Service) (pid : Int) (name : List Nat) :
    Response × List Service :=
  match find_by_name svcs name with
  | some j =>
    match svcs.get? j with
    | some svc =>
      if pid < 2 then (Response.InvalidRequest, svcs)
      else (Response.Okay, svcs.set j { svc with pid := some pid, dirty := true })
    | Option.none => (Response.ServiceNotFound, svcs)
  | Option.none => (Response.ServiceNotFound, svcs)

/-- The Request::DaemonReady arm of handle_request
(src/connate/handle_request.rs): like ServiceStarting but additionally
sets the ready flag. -/
def handle_daemon_ready (svcs : List Service) (pid : Int) (name : List Nat) :
    Response × List Service :=
  match find_by_name svcs name with
  | some j =>
    match svcs.get? j with
    | some svc =>
      if pid < 2 then (Response.InvalidRequest, svcs)
      else (Response.Okay,
            svcs.set j { svc with pid := some pid, ready := true, dirty := true })
    | Option.none => (Response.ServiceNotFound, svcs)
  | Option.none => (Response.ServiceNotFound, svcs)

/-! ## Claim C10 -/

/-- Claim C10: for ServiceStarting and DaemonReady requests whose name
matches a service, a pid below 2 produces InvalidRequest and leaves the
whole table (hence the record, its pid, ready and dirty flags)
untouched, while a pid of 2 or more produces Okay, records the pid (and
ready for DaemonReady) and sets dirty. -/
theorem C10_pid_validation
    (svcs : List Service) (pid : Int) (name : List Nat) (j : Nat) (svc : Service)
    (hfind : find_by_name svcs name = some j)
    (hget : svcs.get? j = some svc) :
    (pid < 2 →
      handle_service_starting svcs pid name = (Response.InvalidRequest, svcs) ∧
      handle_daemon_ready svcs pid name = (Response.InvalidRequest, svcs)) ∧
    (2 ≤ pid →
      handle_service_starting svcs pid name =
        (Response.Okay, svcs.set j { svc with pid := some pid, dirty := true }) ∧
      handle_daemon_ready svcs pid name =
        (Response.Okay, svcs.set j { svc with pid := some pid, ready := true, dirty := true })) := by
  constructor
  · intro hlt
    simp only [handle_service_starting, handle_daemon_ready, hfind, hget]
    rw [if_pos hlt, if_pos hlt]
    exact ⟨rfl, rfl⟩
  · intro hge
    have hnlt : ¬(pid < 2) := by omega
    simp only [handle_service_starting, handle_daemon_ready, hfind, hget]
    rw [if_neg hnlt, if_neg hnlt]
    exact ⟨rfl, rfl⟩

/-- Witness for C10 at pid 1 (rejected) and pid 5 (accepted) shapes:
instantiated at the single-service witness table. -/
theorem C10_witness :
    ((1 : Int) < 2 →
      handle_service_starting [svcW] 1 [97] = (Response.InvalidRequest, [svcW]) ∧
      handle_daemon_ready [svcW] 1 [97] = (Response.InvalidRequest, [svcW])) ∧
    ((2 : Int) ≤ 1 →
      handle_service_starting [svcW] 1 [97] =
        (Response.Okay, [svcW].set 0 { svcW with pid := some 1, dirty := true }) ∧
      handle_daemon_ready [svcW] 1 [97] =
        (Response.Okay, [svcW].set 0 { svcW with pid := some 1, ready := true, dirty := true })) :=
  C10_pid_validation [svcW] 1 [97] 0 svcW (by decide) rfl

/-! ## Claim C5 -/

/-- Claim C5: for attempt_count n ≥ 1 the retry delay equals
initial_delay_ms × multiplier^(n−1) under saturating arithmetic - the
power is saturated into the i32 range (which is the only place
saturation can trigger: the i64 product of two i32-range factors never
overflows), with multiplier 1 (fixed-delay policy) giving exactly the
initial delay forever and multiplier 2 (doubling policy) giving
initial_delay × min(2^(n−1), i32::MAX); and the delay is exactly the
threshold retry_period_elapsed compares against before letting the
service re-enter WaitingToStart from Retrying. -/
theorem C5_retry_delay (svc : Service)
    (hlo : I32MIN ≤ svc.cfg.retry_wait_period_millis)
    (hhi : svc.cfg.retry_wait_period_millis ≤ I32MAX)
    (hn : 1 ≤ svc.attempt_count) :
    (svc.cfg.retry_wait_multiplier = 1 →
        svc.retry_delay_millis = svc.cfg.retry_wait_period_millis) ∧
    (svc.cfg.retry_wait_multiplier = 2 →
        svc.retry_delay_millis =
          svc.cfg.retry_wait_period_millis *
            min (2 ^ (svc.attempt_count - 1)) I32MAX) ∧
    ((svc.target = Target.Up ∨ svc.target = Target.Once) →
      svc.pid = Option.none → svc.supervisor_pid = Option.none →
      ∀ now : Timespec,
        (NextState.from_retrying svc now = NextState.WaitingToStart ↔
          svc.retry_delay_millis ≤ now.millisSince svc.time)) := by
  have eMIN32 : I32MIN = -2147483648 := by norm_num [I32MIN]
  have eMAX32 : I32MAX = 2147483647 := by norm_num [I32MAX]
  have eMIN64 : I64MIN = -9223372036854775808 := by norm_num [I64MIN]
  have eMAX64 : I64MAX = 9223372036854775807 := by norm_num [I64MAX]
  rw [eMIN32] at hlo
  rw [eMAX32] at hhi ⊢
  refine ⟨?_, ?_, ?_⟩
  · intro hm
    rw [Service.retry_delay_millis, hm, one_pow]
    have h1 : sat32 1 = 1 := by
      rw [sat32, eMIN32, eMAX32]
      norm_num
    rw [h1, mul_one, sat64, eMIN64, eMAX64]
    omega
  · intro hm
    rw [Service.retry_delay_millis, hm]
    have hpow : (0 : Int) < 2 ^ (svc.attempt_count - 1) :=
      pow_pos (by norm_num) _
    have hs32 : sat32 (2 ^ (svc.attempt_count - 1)) =
        min (2 ^ (svc.attempt_count - 1)) (2147483647 : Int) := by
      rw [sat32, min_comm, eMIN32, eMAX32]
      omega
    rw [hs32]
    have hmin1 : (1 : Int) ≤ min (2 ^ (svc.attempt_count - 1)) (2147483647 : Int) := by
      omega
    have hmin2 : min (2 ^ (svc.attempt_count - 1)) (2147483647 : Int) ≤ 2147483647 :=
      min_le_right _ _
    rw [sat64, eMIN64, eMAX64]
    set p := svc.cfg.retry_wait_period_millis with hp
    set m := min (2 ^ (svc.attempt_count - 1)) (2147483647 : Int) with hmdef
    have hub : p * m ≤ 9223372036854775807 := by nlinarith
    have hlb : -9223372036854775808 ≤ p * m := by nlinarith
    omega
  · intro htgt hpid hsup now
    have hp : svc.has_pid = false := by
      rw [Service.has_pid, hpid, hsup]
      rfl
    rw [NextState.from_retrying, hp]
    rcases htgt with ht | ht <;> rw [ht] <;>
      (cases hre : retry_period_elapsed svc now with
       | true =>
         rw [retry_period_elapsed, decide_eq_true_eq] at hre
         simp [hre]
       | false =>
         rw [retry_period_elapsed, decide_eq_false_iff_not] at hre
         simp [hre])

/-- Witness service in Retrying with three failed attempts. -/
def svcR : Service :=
  { svcW with state := State.Retrying, target := Target.Up, attempt_count := 3 }

/-- Witness for C5 at multiplier 2, initial delay 100, attempt 3. -/
theorem C5_witness :
    (svcR.cfg.retry_wait_multiplier = 1 →
        svcR.retry_delay_millis = svcR.cfg.retry_wait_period_millis) ∧
    (svcR.cfg.retry_wait_multiplier = 2 →
        svcR.retry_delay_millis =
          svcR.cfg.retry_wait_period_millis *
            min (2 ^ (svcR.attempt_count - 1)) I32MAX) ∧
    ((svcR.target = Target.Up ∨ svcR.target = Target.Once) →
      svcR.pid = Option.none → svcR.supervisor_pid = Option.none →
      ∀ now : Timespec,
        (NextState.from_retrying svcR now = NextState.WaitingToStart ↔
          svcR.retry_delay_millis ≤ now.millisSince svcR.time)) :=
  C5_retry_delay svcR (by decide) (by decide) (by decide)

/-! ## Claim C2 -/

/-- FailedOrRetry with no max_attempt_count configured. -/
theorem afr_eq_none (s : Service) (h : s.cfg.max_attempt_count = Option.none) :
    apply_failed_or_retry s =
      { s with attempt_count := min (s.attempt_count + 1) U32MAX
             , state := State.Retrying } := by
  simp only [apply_failed_or_retry, h]

/-- FailedOrRetry when the incremented counter is still below the max. -/
theorem afr_eq_retry (s : Service) (mx : Nat) (h : s.cfg.max_attempt_count = some mx)
    (hlt : min (s.attempt_count + 1) U32MAX < mx) :
    apply_failed_or_retry s =
      { s with attempt_count := min (s.attempt_count + 1) U32MAX
             , state := State.Retrying } := by
  simp only [apply_failed_or_retry, h]
  rw [if_pos hlt]

/-- FailedOrRetry when the incremented counter reaches the max. -/
theorem afr_eq_failed (s : Service) (mx : Nat) (h : s.cfg.max_attempt_count = some mx)
    (hge : ¬ min (s.attempt_count + 1) U32MAX < mx) :
    apply_failed_or_retry s =
      { s with attempt_count := min (s.attempt_count + 1) U32MAX
             , state := State.Failed
             , target := target_collapse s.target } := by
  simp only [apply_failed_or_retry, h]
  rw [if_neg hge]

/-- The state of a service after n consecutive FailedOrRetry
meta-transitions. -/
def failures_after (svc : Service) : Nat → Service
  | 0 => svc
  | n + 1 => apply_failed_or_retry (failures_after svc n)

/-- Shape of the record after n ≤ k failures when max_attempt_count =
some k: Retrying with counter n strictly below k, Failed with collapsed
target exactly at k. -/
theorem failures_after_some (svc : Service) (h0 : svc.attempt_count = 0) (k : Nat)
    (hk : svc.cfg.max_attempt_count = some k) (hkU : k ≤ U32MAX) :
    ∀ n, n ≤ k → failures_after svc n =
      if n = 0 then svc
      else if n < k then { svc with attempt_count := n, state := State.Retrying }
      else { svc with attempt_count := n, state := State.Failed
                    , target := target_collapse svc.target } := by
  intro n
  induction n with
  | zero => intro _; rfl
  | succ n ih =>
    intro hnk
    have hn' : n ≤ k := by omega
    have hih := ih hn'
    rw [failures_after, hih]
    by_cases hn0 : n = 0
    · subst hn0
      rw [if_pos rfl]
      have hmin : min (svc.attempt_count + 1) U32MAX = 1 := by
        rw [h0]
        have h1 : 1 ≤ U32MAX := by decide
        omega
      by_cases h1k : 1 < k
      · rw [afr_eq_retry svc k hk (by rw [hmin]; omega)]
        rw [if_neg (by omega), if_pos (by omega), hmin]
      · have hk1 : k = 1 := by omega
        rw [afr_eq_failed svc k hk (by rw [hmin]; omega)]
        rw [if_neg (by omega), if_neg (by omega), hmin]
    · rw [if_neg hn0]
      have hnltk : n < k := by omega
      rw [if_pos hnltk]
      have hcfg : ({ svc with attempt_count := n, state := State.Retrying } : Service).cfg.max_attempt_count = some k := hk
      by_cases hsk : n + 1 < k
      · rw [afr_eq_retry _ k hcfg (by show min (n + 1) U32MAX < k; omega)]
        rw [if_neg (by omega), if_pos hsk]
        have hmin : min (n + 1) U32MAX = n + 1 := by omega
        show ({ svc with attempt_count := min (n + 1) U32MAX
                       , state := State.Retrying } : Service) = _
        rw [hmin]
      · rw [afr_eq_failed _ k hcfg (by show ¬ min (n + 1) U32MAX < k; omega)]
        rw [if_neg (by omega), if_neg hsk]
        have hmin : min (n + 1) U32MAX = n + 1 := by omega
        show ({ svc with attempt_count := min (n + 1) U32MAX
                       , state := State.Failed
                       , target := target_collapse svc.target } : Service) = _
        rw [hmin]

/-- Shape of the record after n failures when max_attempt_count = None:
always Retrying, counting up, never Failed. -/
theorem failures_after_none (svc : Service) (h0 : svc.attempt_count = 0)
    (hk : svc.cfg.max_attempt_count = Option.none) :
    ∀ n, n ≤ U32MAX → failures_after svc n =
      if n = 0 then svc
      else { svc with attempt_count := n, state := State.Retrying } := by
  intro n
  induction n with
  | zero => intro _; rfl
  | succ n ih =>
    intro hnU
    have hih := ih (by omega)
    rw [failures_after, hih]
    by_cases hn0 : n = 0
    · subst hn0
      rw [if_pos rfl]
      rw [afr_eq_none svc hk]
      rw [if_neg (by omega)]
      have hmin : min (svc.attempt_count + 1) U32MAX = 1 := by
        rw [h0]
        omega
      rw [hmin]
    · rw [if_neg hn0]
      rw [afr_eq_none { svc with attempt_count := n, state := State.Retrying } hk]
      rw [if_neg (by omega)]
      have hmin : min (n + 1) U32MAX = n + 1 := by omega
      show ({ svc with attempt_count := min (n + 1) U32MAX
                     , state := State.Retrying } : Service) = _
      rw [hmin]

/-- Claim C2: the FailedOrRetry meta-transition increments attempt_count
by one (saturating); with max_attempt_count = some k the service is
Retrying after each of the first k−1 failures and enters Failed exactly
on the k-th one, with its target collapsed Restart→Up / Once→Down at
that moment; with max_attempt_count = None every failure yields
Retrying, and the cycle closes: an elapsed Retrying service with upward
target re-enters WaitingToStart, and a Starting service whose run child
vanished takes FailedOrRetry again. -/
theorem C2_failed_or_retry_cycle (svc : Service) (h0 : svc.attempt_count = 0) :
    (∀ s : Service, s.attempt_count < U32MAX →
        (apply_failed_or_retry s).attempt_count = s.attempt_count + 1) ∧
    (∀ k, svc.cfg.max_attempt_count = some k → 1 ≤ k → k ≤ U32MAX →
        (∀ n, 1 ≤ n → n < k →
          (failures_after svc n).state = State.Retrying ∧
          (failures_after svc n).attempt_count = n ∧
          (failures_after svc n).target = svc.target) ∧
        (failures_after svc k).state = State.Failed ∧
        (failures_after svc k).target = target_collapse svc.target ∧
        (failures_after svc k).attempt_count = k) ∧
    (svc.cfg.max_attempt_count = Option.none →
        ∀ n, 1 ≤ n → n ≤ U32MAX →
          (failures_after svc n).state = State.Retrying ∧
          (failures_after svc n).attempt_count = n) ∧
    (∀ s : Service, (s.target = Target.Up ∨ s.target = Target.Once) →
        s.pid = Option.none → s.supervisor_pid = Option.none →
        ∀ now, retry_period_elapsed s now = true →
          NextState.from_retrying s now = NextState.WaitingToStart) ∧
    (∀ s : Service, s.cfg.run ≠ Run.None →
        s.pid = Option.none → s.supervisor_pid = Option.none →
        ∀ now, NextState.from_starting s now = NextState.FailedOrRetry) := by
  refine ⟨?_, ?_, ?_, ?_, ?_⟩
  · intro s hs
    rw [apply_failed_or_retry_attempt]
    omega
  · intro k hk hk1 hkU
    refine ⟨?_, ?_, ?_, ?_⟩
    · intro n hn1 hnk
      rw [failures_after_some svc h0 k hk hkU n (by omega)]
      rw [if_neg (by omega), if_pos hnk]
      exact ⟨rfl, rfl, rfl⟩
    · rw [failures_after_some svc h0 k hk hkU k (le_refl k)]
      rw [if_neg (by omega), if_neg (by omega)]
    · rw [failures_after_some svc h0 k hk hkU k (le_refl k)]
      rw [if_neg (by omega), if_neg (by omega)]
    · rw [failures_after_some svc h0 k hk hkU k (le_refl k)]
      rw [if_neg (by omega), if_neg (by omega)]
  · intro hk n hn1 hnU
    rw [failures_after_none svc h0 hk n hnU]
    rw [if_neg (by omega)]
    exact ⟨rfl, rfl⟩
  · intro s htgt hpid hsup now hel
    have hp : s.has_pid = false := by
      rw [Service.has_pid, hpid, hsup]
      rfl
    rw [NextState.from_retrying, hp]
    rcases htgt with ht | ht <;> rw [ht] <;> simp [hel]
  · intro s hrun hpid hsup now
    have hp : s.has_pid = false := by
      rw [Service.has_pid, hpid, hsup]
      rfl
    rw [NextState.from_starting.eq_def]
    cases hr : s.cfg.run with
    | None => exact absurd hr hrun
    | Exec => simp [hp]
    | Fn => simp [hp]

/-- Witness for C2 at the concrete witness service (attempt_count 0,
max_attempt_count 3). -/
theorem C2_witness :
    (∀ s : Service, s.attempt_count < U32MAX →
        (apply_failed_or_retry s).attempt_count = s.attempt_count + 1) ∧
    (∀ k, svcW.cfg.max_attempt_count = some k → 1 ≤ k → k ≤ U32MAX →
        (∀ n, 1 ≤ n → n < k →
          (failures_after svcW n).state = State.Retrying ∧
          (failures_after svcW n).attempt_count = n ∧
          (failures_after svcW n).target = svcW.target) ∧
        (failures_after svcW k).state = State.Failed ∧
        (failures_after svcW k).target = target_collapse svcW.target ∧
        (failures_after svcW k).attempt_count = k) ∧
    (svcW.cfg.max_attempt_count = Option.none →
        ∀ n, 1 ≤ n → n ≤ U32MAX →
          (failures_after svcW n).state = State.Retrying ∧
          (failures_after svcW n).attempt_count = n) ∧
    (∀ s : Service, (s.target = Target.Up ∨ s.target = Target.Once) →
        s.pid = Option.none → s.supervisor_pid = Option.none →
        ∀ now, retry_period_elapsed s now = true →
          NextState.from_retrying s now = NextState.WaitingToStart) ∧
    (∀ s : Service, s.cfg.run ≠ Run.None →
        s.pid = Option.none → s.supervisor_pid = Option.none →
        ∀ now, NextState.from_starting s now = NextState.FailedOrRetry) :=
  C2_failed_or_retry_cycle svcW rfl

/-- Witness for the amended C9 encoding at status 0x1300 (exited with
code 19), obtained by applying the encoding theorem. -/
theorem C9_witness :
    ((4864 % 128 = 0 →
        sigchld_exit_code 4864 = some (((4864 / 256 % 256 : Nat) : Int))) ∧
     ((1 ≤ 4864 % 128 ∧ 4864 % 128 ≤ 126) →
        sigchld_exit_code 4864 = some (128 + ((4864 % 128 : Nat) : Int))) ∧
     (4864 % 128 = 127 → sigchld_exit_code 4864 = Option.none)) :=
  C9_exit_code_encoding 4864

/-! ## Poll timeout computation (src/connate/poll.rs) -/

/-- service_timeout from src/connate/poll.rs: the per-service deadline
base (max phase times, the up-stable window for Up with nonzero
attempt_count, the retry delay for an upward Retrying service), with
Some(target_ms.saturating_sub(elapsed)) as the result. -/
def service_timeout (svc : Service) (now : Timespec) : Option Int :=
  let target_ms : Option Int :=
    match svc.state with
    | State.SettingUp => svc.cfg.max_setup_time_millis
    | State.Starting => svc.cfg.max_ready_time_millis
    | State.Up => if svc.attempt_count ≠ 0 then some UP_TIME_MILLIS else Option.none
    | State.Stopping => svc.cfg.max_stop_time_millis
    | State.CleaningUp => svc.cfg.max_cleanup_time_millis
    | State.Retrying =>
      match svc.target with
      | Target.Down | Target.Restart => Option.none
      | _ => some svc.retry_delay_millis
    | _ => Option.none
  target_ms.map (fun t => sat64 (t - now.millisSince svc.time))

/-- The loop body of calculate_poll_timeout from src/connate/poll.rs,
with the iteration index made explicit (the Rust code tracks the
minimum service by mutable reference; the index plays that role here).
remaining.clamp(0, i32::MAX) is max 0 (min remaining I32MAX). -/
def calc_loop (now : Timespec) :
    List Service → Nat → Option Int × Option Nat → Option Int × Option Nat
  | [], _, acc => acc
  | svc :: rest, i, acc =>
    let acc' :=
      match service_timeout svc now with
      | Option.none => acc
      | some remaining0 =>
        let remaining := max 0 (min remaining0 I32MAX)
        match acc.1 with
        | Option.none => (some remaining, some i)
        | some m => if remaining < m then (some remaining, some i) else acc
    calc_loop now rest (i + 1) acc'

/-- calculate_poll_timeout from src/connate/poll.rs. -/
def calculate_poll_timeout (svcs : List Service) (now : Timespec) :
    Option Int × Option Nat :=
  calc_loop now svcs 0 (Option.none, Option.none)

/-- Definition following the words of claim C6: the states carrying a
deadline are SettingUp/Starting/Stopping/CleaningUp with their
configured max times, Up with attempt_count > 0 with the 1000 ms
up-stable window, and Retrying with an upward (Up/Once) target with the
retry delay; the remaining time is the deadline base minus elapsed. -/
def claim_remaining (svc : Service) (now : Timespec) : Option Int :=
  if svc.state = State.SettingUp then
    svc.cfg.max_setup_time_millis.map (fun mx => sat64 (mx - now.millisSince svc.time))
  else if svc.state = State.Starting then
    svc.cfg.max_ready_time_millis.map (fun mx => sat64 (mx - now.millisSince svc.time))
  else if svc.state = State.Stopping then
    svc.cfg.max_stop_time_millis.map (fun mx => sat64 (mx - now.millisSince svc.time))
  else if svc.state = State.CleaningUp then
    svc.cfg.max_cleanup_time_millis.map (fun mx => sat64 (mx - now.millisSince svc.time))
  else if svc.state = State.Up ∧ 0 < svc.attempt_count then
    some (sat64 (UP_TIME_MILLIS - now.millisSince svc.time))
  else if svc.state = State.Retrying ∧
      (svc.target = Target.Up ∨ svc.target = Target.Once) then
    some (sat64 (svc.retry_delay_millis - now.millisSince svc.time))
  else Option.none

/-- The list of clamped remaining times of exactly the deadline-carrying
services, per the words of claim C6. -/
def claim_timeout_list (svcs : List Service) (now : Timespec) : List Int :=
  svcs.filterMap (fun s => (claim_remaining s now).map (fun r => max 0 (min r I32MAX)))

/-- Option-valued running minimum (none on the empty list). -/
def list_min_opt (l : List Int) : Option Int :=
  l.foldl
    (fun a r =>
      match a with
      | Option.none => some r
      | some m => some (min m r))
    Option.none

/-- The source deadline scan agrees pointwise with the claim-side
enumeration of deadline-carrying states. -/
theorem service_timeout_eq_claim (svc : Service) (now : Timespec) :
    service_timeout svc now = claim_remaining svc now := by
  rw [service_timeout, claim_remaining]
  cases hst : svc.state <;> simp only []
  case SettingUp => simp
  case Starting => simp
  case Stopping => simp
  case CleaningUp => simp
  case Up =>
    by_cases hc : svc.attempt_count ≠ 0
    · rw [if_pos hc]
      simp [hc, Nat.pos_of_ne_zero]
    · rw [if_neg hc]
      simp only [ne_eq, Decidable.not_not] at hc
      simp [hc]
  case Retrying =>
    cases htg : svc.target <;> simp
  all_goals simp

/-- Folding min never rises above the seed. -/
theorem foldl_min_le_init (l : List Int) : ∀ m : Int, l.foldl min m ≤ m := by
  induction l with
  | nil => intro m; exact le_refl m
  | cons x xs ih =>
    intro m
    exact le_trans (ih (min m x)) (min_le_left m x)

/-- The folded minimum is the seed or an element of the list. -/
theorem foldl_min_mem (l : List Int) : ∀ m : Int, l.foldl min m = m ∨ l.foldl min m ∈ l := by
  induction l with
  | nil => intro m; exact Or.inl rfl
  | cons x xs ih =>
    intro m
    rcases ih (min m x) with h | h
    · rcases min_cases m x with ⟨hmin, _⟩ | ⟨hmin, _⟩
      · exact Or.inl (by rw [List.foldl_cons, h, hmin])
      · refine Or.inr ?_
        rw [List.foldl_cons, h, hmin]
        exact List.mem_cons_self x xs
    · exact Or.inr (List.mem_cons_of_mem x h)

/-- The folded minimum is below every element of the list. -/
theorem foldl_min_le_mem (l : List Int) : ∀ (m x : Int), x ∈ l → l.foldl min m ≤ x := by
  induction l with
  | nil => intro m x hx; cases hx
  | cons y ys ih =>
    intro m x hx
    rcases List.mem_cons.mp hx with h | hx'
    · rw [h]
      exact le_trans (foldl_min_le_init ys (min m y)) (min_le_right m y)
    · exact ih (min m y) x hx'

/-- Running the option-valued minimum from a some seed folds min. -/
theorem list_min_opt_some_seed (l : List Int) : ∀ m : Int,
    l.foldl
      (fun a r =>
        match a with
        | Option.none => some r
        | some m => some (min m r))
      (some m) = some (l.foldl min m) := by
  induction l with
  | nil => intro m; rfl
  | cons x xs ih => intro m; exact ih (min m x)

/-- list_min_opt is none exactly on the empty list, and otherwise
returns an element that is a lower bound of the list. -/
theorem list_min_opt_spec (l : List Int) :
    (l = [] → list_min_opt l = Option.none) ∧
    (∀ m, list_min_opt l = some m → m ∈ l ∧ ∀ x ∈ l, m ≤ x) := by
  constructor
  · intro h
    subst h
    rfl
  · intro m hm
    cases l with
    | nil => cases hm
    | cons x xs =>
      rw [list_min_opt, List.foldl_cons] at hm
      rw [list_min_opt_some_seed xs x] at hm
      have hmx := (Option.some.injEq _ _).mp hm
      subst hmx
      constructor
      · rcases foldl_min_mem xs x with h | h
        · rw [h]
          exact List.mem_cons_self x xs
        · exact List.mem_cons_of_mem x h
      · intro y hy
        rcases List.mem_cons.mp hy with h | hy'
        · rw [h]
          exact foldl_min_le_init xs x
        · exact foldl_min_le_mem xs x y hy'

/-- The scan loop computes the running minimum of the clamped remaining
times, regardless of the index counter. -/
theorem calc_loop_fst (now : Timespec) :
    ∀ (svcs : List Service) (i : Nat) (acc : Option Int × Option Nat),
    (calc_loop now svcs i acc).1 =
      (claim_timeout_list svcs now).foldl
        (fun a r =>
          match a with
          | Option.none => some r
          | some m => some (min m r))
        acc.1 := by
  intro svcs
  induction svcs with
  | nil => intro i acc; rfl
  | cons svc rest ih =>
    intro i acc
    rw [calc_loop]
    rw [claim_timeout_list, List.filterMap_cons]
    rw [← service_timeout_eq_claim]
    cases hto : service_timeout svc now with
    | none =>
      rw [ih (i + 1) acc]
      rfl
    | some r0 =>
      simp only [Option.map_some', List.foldl_cons]
      cases hacc : acc.1 with
      | none =>
        dsimp only
        rw [ih (i + 1) _]
        rfl
      | some m =>
        dsimp only
        by_cases hlt : max 0 (min r0 I32MAX) < m
        · rw [if_pos hlt, ih (i + 1) _]
          have hmm : min m (max 0 (min r0 I32MAX)) = max 0 (min r0 I32MAX) := by omega
          rw [hmm]
          rfl
        · rw [if_neg hlt, ih (i + 1) _, hacc]
          have hmm : min m (max 0 (min r0 I32MAX)) = m := by omega
          rw [hmm]
          rfl

/-! ## Claim C6 -/

/-- Claim C6: the computed poll timeout is exactly the minimum of the
remaining times of the deadline-carrying services (as enumerated by the
claim: SettingUp/Starting/Stopping/CleaningUp with configured max
times, Up with attempt_count > 0 under the 1000 ms window, Retrying
with upward target under the retry delay), each clamped to
[0, i32::MAX]; with no such service the timeout is none (infinite
wait).  list_min_opt_spec supplies the minimal-element meaning of
list_min_opt. -/
theorem C6_poll_timeout (svcs : List Service) (now : Timespec) :
    ((calculate_poll_timeout svcs now).1 =
        list_min_opt (claim_timeout_list svcs now)) ∧
    (claim_timeout_list svcs now = [] →
        (calculate_poll_timeout svcs now).1 = Option.none) ∧
    (∀ m, (calculate_poll_timeout svcs now).1 = some m →
        m ∈ claim_timeout_list svcs now ∧
        ∀ x ∈ claim_timeout_list svcs now, m ≤ x) := by
  have hfst : (calculate_poll_timeout svcs now).1 =
      list_min_opt (claim_timeout_list svcs now) := by
    rw [calculate_poll_timeout, calc_loop_fst now svcs 0 (Option.none, Option.none)]
    rfl
  refine ⟨hfst, ?_, ?_⟩
  · intro h
    rw [hfst, h]
    rfl
  · intro m hm
    rw [hfst] at hm
    exact (list_min_opt_spec (claim_timeout_list svcs now)).2 m hm

/-- Witness for C6 on a concrete two-service table: the Retrying
witness service (delay 400 ms, 100 ms elapsed, hence 300 ms remaining)
and the plain witness service with no deadline. -/
theorem C6_witness :
    ((calculate_poll_timeout [svcR, svcW] { tv_sec := 0, tv_nsec := 100000000 }).1 =
        list_min_opt (claim_timeout_list [svcR, svcW]
          { tv_sec := 0, tv_nsec := 100000000 })) ∧
    (claim_timeout_list [svcR, svcW] { tv_sec := 0, tv_nsec := 100000000 } = [] →
        (calculate_poll_timeout [svcR, svcW]
          { tv_sec := 0, tv_nsec := 100000000 }).1 = Option.none) ∧
    (∀ m, (calculate_poll_timeout [svcR, svcW]
            { tv_sec := 0, tv_nsec := 100000000 }).1 = some m →
        m ∈ claim_timeout_list [svcR, svcW] { tv_sec := 0, tv_nsec := 100000000 } ∧
        ∀ x ∈ claim_timeout_list [svcR, svcW] { tv_sec := 0, tv_nsec := 100000000 },
          m ≤ x) :=
  C6_poll_timeout [svcR, svcW] { tv_sec := 0, tv_nsec := 100000000 }

/-! ## Target propagation (src/connate/handle_request.rs, set_target) -/

/-- The Up-assignment body of the propagation loops in set_target. -/
def assign_target_up (s : Service) : Service :=
  { s with target := Target.Up, dirty := true }

/-- The Down-assignment body of the propagation loops in set_target. -/
def assign_target_down (s : Service) : Service :=
  { s with target := Target.Down, dirty := true }

/-- The dependent adjustment in the Restart arm of set_target:
Up→Restart, Once→Down, Down/Restart unchanged. -/
def restart_dependent_adjust (s : Service) : Service :=
  match s.target with
  | Target.Down | Target.Restart => s
  | Target.Up => { s with target := Target.Restart, dirty := true }
  | Target.Once => { s with target := Target.Down, dirty := true }

/-- The dependency adjustment in the Restart arm of set_target: only
Down→Up, all other targets left alone. -/
def restart_dependency_up (s : Service) : Service :=
  match s.target with
  | Target.Down => { s with target := Target.Up, dirty := true }
  | _ => s

/-- One propagation loop of set_target: walk the index list applying f,
stopping with false (the early return Response::ServiceNotFound) on an
invalid index, which leaves the table partially mutated exactly as the
Rust early return does. -/
def propagate_all (svcs : List Service) (idxs : List Nat) (f : Service → Service) :
    List Service × Bool :=
  match idxs with
  | [] => (svcs, true)
  | j :: rest =>
    match svcs.get? j with
    | some s => propagate_all (svcs.set j (f s)) rest f
    | Option.none => (svcs, false)

/-- The groups loop at the end of set_target: every group member
inherits the new target verbatim. -/
def set_target_groups (svcs : List Service) (cfg : ServiceConfig) (target : Target) :
    Response × List Service :=
  let p := propagate_all svcs cfg.groups
    (fun s => { s with target := target, dirty := true })
  if p.2 then (Response.Okay, p.1) else (Response.ServiceNotFound, p.1)

/-- set_target from src/connate/handle_request.rs: Failed→Down reset,
direct target assignment, per-target propagation with early
ServiceNotFound return, then group inheritance. -/
def set_target (svcs : List Service) (index : Nat) (now : Timespec) (target : Target) :
    Response × List Service :=
  match svcs.get? index with
  | Option.none => (Response.ServiceNotFound, svcs)
  | some svc =>
    let cfg := svc.cfg
    let svcs1 :=
      if svc.state = State.Failed then NextState.Down.apply svcs index now Option.none
      else svcs
    match svcs1.get? index with
    | Option.none => (Response.ServiceNotFound, svcs1)
    | some svcB =>
      let svcs2 := svcs1.set index { svcB with target := target, dirty := true }
      match target with
      | Target.Up | Target.Once =>
        let p3 := propagate_all svcs2 cfg.target_up_propagate_up assign_target_up
        if p3.2 = false then (Response.ServiceNotFound, p3.1)
        else
          let p4 := propagate_all p3.1 cfg.target_up_propagate_down assign_target_down
          if p4.2 = false then (Response.ServiceNotFound, p4.1)
          else set_target_groups p4.1 cfg target
      | Target.Down =>
        let p3 := propagate_all svcs2 cfg.target_down_propagate_down assign_target_down
        if p3.2 = false then (Response.ServiceNotFound, p3.1)
        else set_target_groups p3.1 cfg target
      | Target.Restart =>
        let p3 := propagate_all svcs2 cfg.target_down_propagate_down restart_dependent_adjust
        if p3.2 = false then (Response.ServiceNotFound, p3.1)
        else
          let p4 := propagate_all p3.1 cfg.target_up_propagate_up restart_dependency_up
          if p4.2 = false then (Response.ServiceNotFound, p4.1)
          else
            let p5 := propagate_all p4.1 cfg.target_up_propagate_down assign_target_down
            if p5.2 = false then (Response.ServiceNotFound, p5.1)
            else set_target_groups p5.1 cfg target

/-! ## Claim C3 -/

/-- Config for the counterexample: service 0 propagates its upward
target to service 1. -/
def cfgA : ServiceConfig := { cfgW with name := [98], target_up_propagate_up := [1] }

/-- Counterexample service 0 (commands arrive at it). -/
def svcA : Service := { svcW with state := State.Down, target := Target.Up, cfg := cfgA }

/-- Counterexample service 1: a dependency whose target is Once. -/
def svcB : Service :=
  { svcW with state := State.Down, target := Target.Once
            , cfg := { cfgW with name := [99] } }

/-- Claim C3 counterexample: setting service 0's target to Restart does
NOT apply Up propagation to the dependency exactly as in the Up case -
the dependency's Once target survives a Restart command, while the same
command with target Up rewrites it to Up. -/
theorem C3_counterexample :
    ((set_target [svcA, svcB] 0 tsW Target.Restart).2.get? 1).map Service.target =
      some Target.Once ∧
    ((set_target [svcA, svcB] 0 tsW Target.Up).2.get? 1).map Service.target =
      some Target.Up ∧
    (set_target [svcA, svcB] 0 tsW Target.Restart).1 = Response.Okay ∧
    (set_target [svcA, svcB] 0 tsW Target.Up).1 = Response.Okay := by
  refine ⟨?_, ?_, ?_, ?_⟩ <;> rfl

/-- A valid index always yields a record. -/
theorem exists_get?_lt {α : Type} (l : List α) (j : Nat) (h : j < l.length) :
    ∃ x, l.get? j = some x := by
  rw [List.get?_eq_getElem?, List.getElem?_eq_getElem h]
  exact ⟨_, rfl⟩

/-- A record implies a valid index. -/
theorem lt_of_get?_eq_some {α : Type} (l : List α) (j : Nat) (x : α)
    (h : l.get? j = some x) : j < l.length := by
  by_contra hcon
  rw [List.get?_eq_getElem?, List.getElem?_eq_none (by omega)] at h
  cases h

/-- set_dirty_at preserves the table length. -/
theorem set_dirty_at_length (l : List Service) (j : Nat) :
    (set_dirty_at l j).length = l.length := by
  rw [set_dirty_at]
  cases l.get? j <;> simp

/-- Folding set_dirty_at preserves the table length. -/
theorem fold_set_dirty_length (idxs : List Nat) :
    ∀ l : List Service, (idxs.foldl set_dirty_at l).length = l.length := by
  induction idxs with
  | nil => intro l; rfl
  | cons j rest ih =>
    intro l
    rw [List.foldl_cons, ih, set_dirty_at_length]

/-- NextState::apply preserves the table length. -/
theorem apply_length (ns : NextState) (svcs : List Service) (i : Nat) (now : Timespec)
    (fork : Option Int) : (ns.apply svcs i now fork).length = svcs.length := by
  rw [NextState.apply.eq_def]
  cases hgi : svcs.get? i with
  | none => rfl
  | some svc =>
    cases ns <;> simp [fold_set_dirty_length]

/-- propagate_all preserves the table length. -/
theorem propagate_all_length (f : Service → Service) :
    ∀ (idxs : List Nat) (svcs : List Service),
      (propagate_all svcs idxs f).1.length = svcs.length := by
  intro idxs
  induction idxs with
  | nil => intro svcs; rfl
  | cons j rest ih =>
    intro svcs
    rw [propagate_all]
    cases hj : svcs.get? j with
    | none => rfl
    | some s =>
      rw [ih, List.length_set]

/-- On an all-valid index list, propagate_all succeeds and applies f
exactly to the listed indices (f idempotent, as all propagation bodies
are). -/
theorem propagate_all_valid (f : Service → Service) (hf : ∀ s, f (f s) = f s) :
    ∀ (idxs : List Nat) (svcs : List Service), (∀ j ∈ idxs, j < svcs.length) →
    (propagate_all svcs idxs f).2 = true ∧
    ∀ m, (propagate_all svcs idxs f).1.get? m =
      (svcs.get? m).map (fun s => if m ∈ idxs then f s else s) := by
  intro idxs
  induction idxs with
  | nil =>
    intro svcs _
    refine ⟨rfl, fun m => ?_⟩
    show svcs.get? m = (svcs.get? m).map (fun s => if m ∈ ([] : List Nat) then f s else s)
    cases svcs.get? m <;> simp
  | cons j rest ih =>
    intro svcs hv
    have hj : j < svcs.length := hv j (List.mem_cons_self j rest)
    obtain ⟨s, hs⟩ := exists_get?_lt svcs j hj
    rw [propagate_all, hs]
    have hv' : ∀ m ∈ rest, m < (svcs.set j (f s)).length := by
      intro m hm
      rw [List.length_set]
      exact hv m (List.mem_cons_of_mem j hm)
    obtain ⟨hok, hmap⟩ := ih (svcs.set j (f s)) hv'
    refine ⟨hok, fun m => ?_⟩
    rw [hmap m, list_get?_set]
    by_cases hmj : m = j
    · subst hmj
      rw [if_pos rfl, hs]
      simp only [Option.map_some', Option.map_map]
      by_cases hmr : m ∈ rest
      · simp [hmr, hf]
      · simp [hmr, List.mem_cons]
    · rw [if_neg hmj]
      cases hm : svcs.get? m with
      | none => simp
      | some t =>
        simp only [Option.map_some', Option.some.injEq, List.mem_cons]
        by_cases hmr : m ∈ rest <;> simp [hmr, hmj]

/-- assign_target_up is idempotent. -/
theorem assign_target_up_idem (s : Service) :
    assign_target_up (assign_target_up s) = assign_target_up s := rfl

/-- assign_target_down is idempotent. -/
theorem assign_target_down_idem (s : Service) :
    assign_target_down (assign_target_down s) = assign_target_down s := rfl

/-- restart_dependent_adjust is idempotent. -/
theorem restart_dependent_adjust_idem (s : Service) :
    restart_dependent_adjust (restart_dependent_adjust s) = restart_dependent_adjust s := by
  cases htg : s.target <;> simp [restart_dependent_adjust, htg]

/-- restart_dependency_up is idempotent. -/
theorem restart_dependency_up_idem (s : Service) :
    restart_dependency_up (restart_dependency_up s) = restart_dependency_up s := by
  cases htg : s.target <;> simp [restart_dependency_up, htg]

/-- Claim C3 (amended): when a command sets a service's target to
Restart with all propagation indices valid, the dependents in
target_down_propagate_down are adjusted Up→Restart, Once→Down,
Down/Restart unchanged; the dependencies in target_up_propagate_up
receive Up propagation only in the weakened form Down→Up (all other
targets, including Once, are left alone - NOT exactly as in the Up
case); every conflict in target_up_propagate_down is set to Down; and
afterwards every element of the service's own groups list receives
Restart verbatim, the phases reading the table in that order. -/
theorem C3_restart_propagation
    (svcs : List Service) (index : Nat) (now : Timespec) (svc : Service)
    (hget : svcs.get? index = some svc)
    (hvdown : ∀ j ∈ svc.cfg.target_down_propagate_down, j < svcs.length)
    (hvup : ∀ j ∈ svc.cfg.target_up_propagate_up, j < svcs.length)
    (hvconf : ∀ j ∈ svc.cfg.target_up_propagate_down, j < svcs.length)
    (hvgrp : ∀ j ∈ svc.cfg.groups, j < svcs.length) :
    (set_target svcs index now Target.Restart).1 = Response.Okay ∧
    (∀ j ∈ svc.cfg.groups, ∀ s',
        (set_target svcs index now Target.Restart).2.get? j = some s' →
        s'.target = Target.Restart ∧ s'.dirty = true) ∧
    (∀ j ∈ svc.cfg.target_up_propagate_down, j ∉ svc.cfg.groups → ∀ s',
        (set_target svcs index now Target.Restart).2.get? j = some s' →
        s'.target = Target.Down) ∧
    (∀ j ∈ svc.cfg.target_up_propagate_up,
        j ∉ svc.cfg.target_up_propagate_down → j ∉ svc.cfg.groups →
        j ∉ svc.cfg.target_down_propagate_down → j ≠ index →
        ∀ sj s', svcs.get? j = some sj →
        (set_target svcs index now Target.Restart).2.get? j = some s' →
        s'.target = (if sj.target = Target.Down then Target.Up else sj.target)) ∧
    (∀ j ∈ svc.cfg.target_down_propagate_down,
        j ∉ svc.cfg.target_up_propagate_up → j ∉ svc.cfg.target_up_propagate_down →
        j ∉ svc.cfg.groups → j ≠ index →
        ∀ sj s', svcs.get? j = some sj →
        (set_target svcs index now Target.Restart).2.get? j = some s' →
        s'.target =
          (match sj.target with
           | Target.Up => Target.Restart
           | Target.Once => Target.Down
           | t => t)) := by
  have hidx : index < svcs.length := lt_of_get?_eq_some svcs index svc hget
  -- stage 1: the Failed reset (target-preserving off the commanded index)
  set S1 : List Service :=
    (if svc.state = State.Failed then NextState.Down.apply svcs index now Option.none
     else svcs) with hS1def
  have hlen1 : S1.length = svcs.length := by
    rw [hS1def]
    split
    · exact apply_length _ _ _ _ _
    · rfl
  have htgt1 : ∀ j, j ≠ index → ∀ sj, svcs.get? j = some sj →
      ∃ t1, S1.get? j = some t1 ∧ t1.target = sj.target := by
    intro j hne sj hsj
    rw [hS1def]
    split
    · obtain ⟨t1, ht1, hcase⟩ :=
        apply_get_other NextState.Down svcs index now Option.none j hne sj hsj
      refine ⟨t1, ht1, ?_⟩
      rcases hcase with rfl | rfl <;> rfl
    · exact ⟨sj, hsj, rfl⟩
  obtain ⟨svcB, hgetB⟩ := exists_get?_lt S1 index (by omega)
  -- stage 2: the direct target assignment on the commanded index
  set S2 : List Service :=
    S1.set index { svcB with target := Target.Restart, dirty := true } with hS2def
  have hlen2 : S2.length = svcs.length := by
    rw [hS2def, List.length_set, hlen1]
  have htgt2 : ∀ j, j ≠ index → S2.get? j = S1.get? j := by
    intro j hne
    rw [hS2def, list_get?_set, if_neg hne]
  -- stage 3: dependent adjustment
  obtain ⟨hok3, hmap3⟩ :=
    propagate_all_valid restart_dependent_adjust restart_dependent_adjust_idem
      svc.cfg.target_down_propagate_down S2 (by rw [hlen2]; exact hvdown)
  set P3 := propagate_all S2 svc.cfg.target_down_propagate_down restart_dependent_adjust
    with hP3def
  have hlen3 : P3.1.length = svcs.length := by
    rw [hP3def, propagate_all_length, hlen2]
  -- stage 4: dependency Down→Up
  obtain ⟨hok4, hmap4⟩ :=
    propagate_all_valid restart_dependency_up restart_dependency_up_idem
      svc.cfg.target_up_propagate_up P3.1 (by rw [hlen3]; exact hvup)
  set P4 := propagate_all P3.1 svc.cfg.target_up_propagate_up restart_dependency_up
    with hP4def
  have hlen4 : P4.1.length = svcs.length := by
    rw [hP4def, propagate_all_length, hlen3]
  -- stage 5: conflicts Down
  obtain ⟨hok5, hmap5⟩ :=
    propagate_all_valid assign_target_down assign_target_down_idem
      svc.cfg.target_up_propagate_down P4.1 (by rw [hlen4]; exact hvconf)
  set P5 := propagate_all P4.1 svc.cfg.target_up_propagate_down assign_target_down
    with hP5def
  have hlen5 : P5.1.length = svcs.length := by
    rw [hP5def, propagate_all_length, hlen4]
  -- stage 6: groups inherit Restart verbatim
  obtain ⟨hok6, hmap6⟩ :=
    propagate_all_valid (fun s => { s with target := Target.Restart, dirty := true })
      (fun s => rfl) svc.cfg.groups P5.1 (by rw [hlen5]; exact hvgrp)
  set P6 := propagate_all P5.1 svc.cfg.groups
    (fun s => { s with target := Target.Restart, dirty := true }) with hP6def
  -- the call reduces to the staged pipeline
  have hst : set_target svcs index now Target.Restart = (Response.Okay, P6.1) := by
    simp only [set_target, hget]
    rw [← hS1def]
    simp only [hgetB]
    rw [← hS2def, ← hP3def, hok3]
    simp only [Bool.true_eq_false, if_false]
    rw [← hP4def, hok4]
    simp only [Bool.true_eq_false, if_false]
    rw [← hP5def, hok5]
    simp only [Bool.true_eq_false, if_false]
    rw [set_target_groups, ← hP6def, hok6]
    rfl
  rw [hst]
  refine ⟨rfl, ?_, ?_, ?_, ?_⟩
  · -- groups
    intro j hj s' hs'
    obtain ⟨x5, hx5⟩ := exists_get?_lt P5.1 j (by rw [hlen5]; exact hvgrp j hj)
    rw [hmap6 j, hx5] at hs'
    simp only [Option.map_some', Option.some.injEq, if_pos hj] at hs'
    rw [← hs']
    exact ⟨rfl, rfl⟩
  · -- conflicts
    intro j hj hjg s' hs'
    obtain ⟨x4, hx4⟩ := exists_get?_lt P4.1 j (by rw [hlen4]; exact hvconf j hj)
    rw [hmap6 j, hmap5 j, hx4] at hs'
    simp only [Option.map_some', Option.some.injEq, if_pos hj, if_neg hjg] at hs'
    rw [← hs']
    rfl
  · -- dependencies: only Down→Up
    intro j hj hjc hjg hjd hji sj s' hsj hs'
    obtain ⟨t1, ht1, htgt⟩ := htgt1 j hji sj hsj
    rw [hmap6 j, hmap5 j, hmap4 j, hmap3 j, htgt2 j hji, ht1] at hs'
    simp only [Option.map_some', Option.some.injEq, if_pos hj, if_neg hjc, if_neg hjg,
      if_neg hjd] at hs'
    rw [← hs', restart_dependency_up.eq_def]
    cases htg : t1.target <;> rw [htg] at htgt <;> rw [← htgt] <;> simp [htg]
  · -- dependents: Up→Restart, Once→Down, else unchanged
    intro j hj hju hjc hjg hji sj s' hsj hs'
    obtain ⟨t1, ht1, htgt⟩ := htgt1 j hji sj hsj
    rw [hmap6 j, hmap5 j, hmap4 j, hmap3 j, htgt2 j hji, ht1] at hs'
    simp only [Option.map_some', Option.some.injEq, if_pos hj, if_neg hju, if_neg hjc,
      if_neg hjg] at hs'
    rw [← hs', restart_dependent_adjust.eq_def]
    cases htg : t1.target <;> rw [htg] at htgt <;> rw [← htgt] <;> simp [htg]

/-- Witness for the amended C3 at the two-service counterexample table
(service 0 commands Restart; service 1 is its dependency with target
Once, which stays Once). -/
theorem C3_witness :
    (set_target [svcA, svcB] 0 tsW Target.Restart).1 = Response.Okay ∧
    (∀ j ∈ svcA.cfg.groups, ∀ s',
        (set_target [svcA, svcB] 0 tsW Target.Restart).2.get? j = some s' →
        s'.target = Target.Restart ∧ s'.dirty = true) ∧
    (∀ j ∈ svcA.cfg.target_up_propagate_down, j ∉ svcA.cfg.groups → ∀ s',
        (set_target [svcA, svcB] 0 tsW Target.Restart).2.get? j = some s' →
        s'.target = Target.Down) ∧
    (∀ j ∈ svcA.cfg.target_up_propagate_up,
        j ∉ svcA.cfg.target_up_propagate_down → j ∉ svcA.cfg.groups →
        j ∉ svcA.cfg.target_down_propagate_down → j ≠ 0 →
        ∀ sj s', [svcA, svcB].get? j = some sj →
        (set_target [svcA, svcB] 0 tsW Target.Restart).2.get? j = some s' →
        s'.target = (if sj.target = Target.Down then Target.Up else sj.target)) ∧
    (∀ j ∈ svcA.cfg.target_down_propagate_down,
        j ∉ svcA.cfg.target_up_propagate_up → j ∉ svcA.cfg.target_up_propagate_down →
        j ∉ svcA.cfg.groups → j ≠ 0 →
        ∀ sj s', [svcA, svcB].get? j = some sj →
        (set_target [svcA, svcB] 0 tsW Target.Restart).2.get? j = some s' →
        s'.target =
          (match sj.target with
           | Target.Up => Target.Restart
           | Target.Once => Target.Down
           | t => t)) :=
  C3_restart_propagation [svcA, svcB] 0 tsW svcA rfl
    (by decide) (by decide) (by decide) (by decide)

/-! ## Session serialisation (src/connate/session.rs)

The session memfd is modelled as a byte list (bytes are Nats below
256).  Multi-byte integers are little-endian as in the source; i32/i64
values are encoded via their two's complement representative.  The
settle feature is compiled in (both sides of the round-trip handle the
settle pipe). -/

/-- PIPE_BUF from src/constants.rs. -/
def PIPE_BUF : Nat := 4096

/-- MSG_SVC_NAME_SIZE from src/constants.rs: PIPE_BUF minus request
header, dependency index and string length prefix. -/
def MSG_SVC_NAME_SIZE : Nat := PIPE_BUF - 1 - 8 - 2

/-- SESSION_SERVICE_SIZE from src/connate/session.rs (the per-service
write buffer capacity). -/
def SESSION_SERVICE_SIZE : Nat :=
  1 + 2 + MSG_SVC_NAME_SIZE + 1 + 1 + (1 + 4) + (1 + 4) + (1 + 4 * 2) + (1 + 4) +
    (1 + 4) + (1 + 8) + (1 + 8) + (1 + 8) + (1 + 8) + 1 + (1 + 4 * 2) + 1

/-- k-byte little-endian encoding of a Nat (truncating above 256^k). -/
def natLE : Nat → Nat → List Nat
  | 0, _ => []
  | k + 1, n => n % 256 :: natLE k (n / 256)

/-- Little-endian decoding of a byte list. -/
def natOfLE : List Nat → Nat
  | [] => 0
  | b :: rest => b + 256 * natOfLE rest

/-- i32 little-endian bytes of an integer (two's complement). -/
def i32le (v : Int) : List Nat := natLE 4 (v % 2 ^ 32).toNat

/-- i64 little-endian bytes of an integer (two's complement). -/
def i64le (v : Int) : List Nat := natLE 8 (v % 2 ^ 64).toNat

/-- Read back an i32 from its Nat representative. -/
def decodeI32 (m : Nat) : Int :=
  if m < 2 ^ 31 then (m : Int) else (m : Int) - 2 ^ 32

/-- Read back an i64 from its Nat representative. -/
def decodeI64 (m : Nat) : Int :=
  if m < 2 ^ 63 then (m : Int) else (m : Int) - 2 ^ 64

/-- SessionField from src/connate/session.rs. -/
inductive SessionField
  | ServiceStart
  | ServiceEnd
  | StateDown
  | StateWaitingToStart
  | StateSettingUp
  | StateStarting
  | StateUp
  | StateWaitingToStop
  | StateStopping
  | StateCleaningUp
  | StateRetrying
  | StateFailed
  | StateForceDown
  | StateCannotStop
  | TargetDown
  | TargetUp
  | TargetRestart
  | TargetOnce
  | Pid
  | SupervisorPid
  | StdinPipe
  | ReturnValue
  | SettlePipe
  | AttemptCount
  | TimeSec
  | TimeNsec
  | Ready
deriving DecidableEq, Repr

/-- SessionField::as_byte from src/connate/session.rs (the glyph
bytes). -/
def SessionField.asByte : SessionField → Nat
  | SessionField.ServiceStart => 91
  | SessionField.ServiceEnd => 93
  | SessionField.StateDown => 100
  | SessionField.StateWaitingToStart => 119
  | SessionField.StateSettingUp => 115
  | SessionField.StateStarting => 83
  | SessionField.StateUp => 117
  | SessionField.StateWaitingToStop => 87
  | SessionField.StateStopping => 103
  | SessionField.StateCleaningUp => 99
  | SessionField.StateRetrying => 114
  | SessionField.StateFailed => 102
  | SessionField.StateForceDown => 70
  | SessionField.StateCannotStop => 67
  | SessionField.TargetDown => 68
  | SessionField.TargetUp => 85
  | SessionField.TargetRestart => 82
  | SessionField.TargetOnce => 79
  | SessionField.Pid => 112
  | SessionField.SupervisorPid => 80
  | SessionField.StdinPipe => 105
  | SessionField.ReturnValue => 118
  | SessionField.SettlePipe => 113
  | SessionField.AttemptCount => 97
  | SessionField.TimeSec => 116
  | SessionField.TimeNsec => 110
  | SessionField.Ready => 121

/-- SessionField::try_from from src/connate/session.rs: the inverse of
as_byte, with unknown bytes rejected. -/
def SessionField.ofByte (b : Nat) : Option SessionField :=
  if b = 91 then some SessionField.ServiceStart
  else if b = 93 then some SessionField.ServiceEnd
  else if b = 100 then some SessionField.StateDown
  else if b = 119 then some SessionField.StateWaitingToStart
  else if b = 115 then some SessionField.StateSettingUp
  else if b = 83 then some SessionField.StateStarting
  else if b = 117 then some SessionField.StateUp
  else if b = 87 then some SessionField.StateWaitingToStop
  else if b = 103 then some SessionField.StateStopping
  else if b = 99 then some SessionField.StateCleaningUp
  else if b = 114 then some SessionField.StateRetrying
  else if b = 102 then some SessionField.StateFailed
  else if b = 70 then some SessionField.StateForceDown
  else if b = 67 then some SessionField.StateCannotStop
  else if b = 68 then some SessionField.TargetDown
  else if b = 85 then some SessionField.TargetUp
  else if b = 82 then some SessionField.TargetRestart
  else if b = 79 then some SessionField.TargetOnce
  else if b = 112 then some SessionField.Pid
  else if b = 80 then some SessionField.SupervisorPid
  else if b = 105 then some SessionField.StdinPipe
  else if b = 118 then some SessionField.ReturnValue
  else if b = 113 then some SessionField.SettlePipe
  else if b = 97 then some SessionField.AttemptCount
  else if b = 116 then some SessionField.TimeSec
  else if b = 110 then some SessionField.TimeNsec
  else if b = 121 then some SessionField.Ready
  else Option.none

/-- The state glyph written by SessionFd::save. -/
def state_field (st : State) : SessionField :=
  match st with
  | State.Down => SessionField.StateDown
  | State.WaitingToStart => SessionField.StateWaitingToStart
  | State.SettingUp => SessionField.StateSettingUp
  | State.Starting => SessionField.StateStarting
  | State.Up => SessionField.StateUp
  | State.WaitingToStop => SessionField.StateWaitingToStop
  | State.Stopping => SessionField.StateStopping
  | State.CleaningUp => SessionField.StateCleaningUp
  | State.Retrying => SessionField.StateRetrying
  | State.Failed => SessionField.StateFailed
  | State.ForceDown => SessionField.StateForceDown
  | State.CannotStop => SessionField.StateCannotStop

/-- The target glyph written by SessionFd::save. -/
def target_field (t : Target) : SessionField :=
  match t with
  | Target.Down => SessionField.TargetDown
  | Target.Up => SessionField.TargetUp
  | Target.Restart => SessionField.TargetRestart
  | Target.Once => SessionField.TargetOnce

/-- The per-service record written by SessionFd::save
(src/connate/session.rs): ServiceStart, u16 name length, name bytes,
state glyph, target glyph, then each optional/non-default field with its
glyph, then ServiceEnd.  The BufWriter pushes into a buffer of
SESSION_SERVICE_SIZE bytes and errors (EOVERFLOW) when a push would
exceed it; since pushes only append, that is exactly a final length
check.  The u16 cast of the name length is exact whenever the record
fits (SESSION_SERVICE_SIZE < 65536). -/
def seg_pid (o : Option Int) : List Nat :=
  match o with
  | some p => SessionField.Pid.asByte :: i32le p
  | Option.none => []

def seg_sup (o : Option Int) : List Nat :=
  match o with
  | some p => SessionField.SupervisorPid.asByte :: i32le p
  | Option.none => []

def seg_stdin (o : Option (Int × Int)) : List Nat :=
  match o with
  | some (r, w) => SessionField.StdinPipe.asByte :: (i32le r ++ i32le w)
  | Option.none => []

def seg_exit (o : Option Int) : List Nat :=
  match o with
  | some v => SessionField.ReturnValue.asByte :: i32le v
  | Option.none => []

def seg_settle (o : Option (Int × Int)) : List Nat :=
  match o with
  | some (r, w) => SessionField.SettlePipe.asByte :: (i32le r ++ i32le w)
  | Option.none => []

def seg_attempt (n : Nat) : List Nat :=
  if n ≠ 0 then SessionField.AttemptCount.asByte :: natLE 4 n else []

def seg_sec (v : Int) : List Nat :=
  if v ≠ 0 then SessionField.TimeSec.asByte :: i64le v else []

def seg_nsec (v : Int) : List Nat :=
  if v ≠ 0 then SessionField.TimeNsec.asByte :: i64le v else []

def seg_ready (b : Bool) : List Nat :=
  if b then [SessionField.Ready.asByte] else []

def serialize_service (svc : Service) : Option (List Nat) :=
  let bytes :=
    [SessionField.ServiceStart.asByte]
    ++ natLE 2 svc.cfg.name.length
    ++ svc.cfg.name
    ++ [(state_field svc.state).asByte]
    ++ [(target_field svc.target).asByte]
    ++ seg_pid svc.pid
    ++ seg_sup svc.supervisor_pid
    ++ seg_stdin svc.stdin_pipe
    ++ seg_exit svc.exit_code
    ++ seg_settle svc.settle_pipe
    ++ seg_attempt svc.attempt_count
    ++ seg_sec svc.time.tv_sec
    ++ seg_nsec svc.time.tv_nsec
    ++ seg_ready svc.ready
    ++ [SessionField.ServiceEnd.asByte]
  if bytes.length ≤ SESSION_SERVICE_SIZE then some bytes else Option.none

/-- SessionFd::save over the whole table: concatenation of the
per-service records, failing if any record overflows its buffer. -/
def save_session : List Service → Option (List Nat)
  | [] => some []
  | svc :: rest =>
    match serialize_service svc, save_session rest with
    | some b, some r => some (b ++ r)
    | _, _ => Option.none

/-- The parser state of SessionFd::deserialize: the currently matched
service (as a table index) and the accumulated field values, reset to
defaults at every ServiceStart. -/
structure ParseCtx where
  svc : Option Nat
  state : State
  target : Target
  pid : Option Int
  supervisor_pid : Option Int
  stdin_pipe : Option (Int × Int)
  exit_code : Option Int
  attempt_count : Nat
  time_sec : Int
  time_nsec : Int
  ready : Bool
  settle_pipe : Option (Int × Int)
deriving DecidableEq, Repr

/-- The defaults installed before the loop and at each ServiceStart. -/
def ParseCtx.dflt (svc : Option Nat) : ParseCtx :=
  { svc := svc
  , state := State.Down
  , target := Target.Down
  , pid := Option.none
  , supervisor_pid := Option.none
  , stdin_pipe := Option.none
  , exit_code := Option.none
  , attempt_count := 0
  , time_sec := 0
  , time_nsec := 0
  , ready := false
  , settle_pipe := Option.none }

/-- Externally visible side effects of deserialization: signals sent to
stray processes and file descriptors closed. -/
inductive Action
  | sigterm (pid : Int)
  | closeFd (fd : Int)
deriving DecidableEq, Repr

/-- The ServiceEnd commit for a recognized service
(src/connate/session.rs): every accumulated field is applied; the stdin
pipe is taken into the record only for a logger, otherwise its two fds
are closed and the record's own stdin_pipe stays; dirty is untouched. -/
def apply_ctx_to_service (svc : Service) (ctx : ParseCtx) : Service × List Action :=
  let stdin_acts : Option (Int × Int) × List Action :=
    if svc.cfg.is_logger then (ctx.stdin_pipe, [])
    else
      match ctx.stdin_pipe with
      | some (r, w) => (svc.stdin_pipe, [Action.closeFd r, Action.closeFd w])
      | Option.none => (svc.stdin_pipe, [])
  ({ svc with
      state := ctx.state
    , target := ctx.target
    , pid := ctx.pid
    , supervisor_pid := ctx.supervisor_pid
    , stdin_pipe := stdin_acts.1
    , exit_code := ctx.exit_code
    , attempt_count := ctx.attempt_count
    , time := { tv_sec := ctx.time_sec, tv_nsec := ctx.time_nsec }
    , ready := ctx.ready
    , settle_pipe := ctx.settle_pipe }, stdin_acts.2)

/-- The ServiceEnd branch for an unrecognized service
(src/connate/session.rs): SIGTERM to pid and supervisor pid when
present, close both fds of the stdin and settle pipes when present. -/
def unknown_service_actions (ctx : ParseCtx) : List Action :=
  (match ctx.pid with
   | some p => [Action.sigterm p]
   | Option.none => [])
  ++ (match ctx.supervisor_pid with
      | some p => [Action.sigterm p]
      | Option.none => [])
  ++ (match ctx.stdin_pipe with
      | some (r, w) => [Action.closeFd r, Action.closeFd w]
      | Option.none => [])
  ++ (match ctx.settle_pipe with
      | some (r, w) => [Action.closeFd r, Action.closeFd w]
      | Option.none => [])

/-- The read loop of SessionFd::deserialize (src/connate/session.rs)
over a byte list: one header byte per step; unknown headers are
skipped; field reads consume the exact number of following bytes and
fail (EINVAL) when the file ends short, or when a name length exceeds
the read buffer; ServiceStart looks the name up and resets the
accumulator; ServiceEnd commits to the matched service or, for an
unknown name, kills stray pids and closes stray fds. -/
def deserialize_loop (bytes : List Nat) (svcs : List Service) (ctx : ParseCtx)
    (acts : List Action) : Except Unit (List Service × List Action) :=
  match bytes with
  | [] => Except.ok (svcs, acts)
  | b :: rest =>
    match SessionField.ofByte b with
    | Option.none => deserialize_loop rest svcs ctx acts
    | some f =>
      match f with
      | SessionField.ServiceStart =>
        if 2 ≤ rest.length then
          let nameLen := natOfLE (rest.take 2)
          let r1 := rest.drop 2
          if nameLen ≤ SESSION_SERVICE_SIZE then
            if nameLen ≤ r1.length then
              deserialize_loop (r1.drop nameLen) svcs
                (ParseCtx.dflt (find_by_name svcs (r1.take nameLen))) acts
            else Except.error ()
          else Except.error ()
        else Except.error ()
      | SessionField.ServiceEnd =>
        match ctx.svc with
        | some j =>
          match svcs.get? j with
          | some s =>
            let pa := apply_ctx_to_service s ctx
            deserialize_loop rest (svcs.set j pa.1)
              { ctx with stdin_pipe := Option.none, settle_pipe := Option.none }
              (acts ++ pa.2)
          | Option.none =>
            deserialize_loop rest svcs
              { ctx with stdin_pipe := Option.none, settle_pipe := Option.none } acts
        | Option.none =>
          deserialize_loop rest svcs
            { ctx with stdin_pipe := Option.none, settle_pipe := Option.none }
            (acts ++ unknown_service_actions ctx)
      | SessionField.StateDown =>
        deserialize_loop rest svcs { ctx with state := State.Down } acts
      | SessionField.StateWaitingToStart =>
        deserialize_loop rest svcs { ctx with state := State.WaitingToStart } acts
      | SessionField.StateSettingUp =>
        deserialize_loop rest svcs { ctx with state := State.SettingUp } acts
      | SessionField.StateStarting =>
        deserialize_loop rest svcs { ctx with state := State.Starting } acts
      | SessionField.StateUp =>
        deserialize_loop rest svcs { ctx with state := State.Up } acts
      | SessionField.StateWaitingToStop =>
        deserialize_loop rest svcs { ctx with state := State.WaitingToStop } acts
      | SessionField.StateStopping =>
        deserialize_loop rest svcs { ctx with state := State.Stopping } acts
      | SessionField.StateCleaningUp =>
        deserialize_loop rest svcs { ctx with state := State.CleaningUp } acts
      | SessionField.StateRetrying =>
        deserialize_loop rest svcs { ctx with state := State.Retrying } acts
      | SessionField.StateFailed =>
        deserialize_loop rest svcs { ctx with state := State.Failed } acts
      | SessionField.StateForceDown =>
        deserialize_loop rest svcs { ctx with state := State.ForceDown } acts
      | SessionField.StateCannotStop =>
        deserialize_loop rest svcs { ctx with state := State.CannotStop } acts
      | SessionField.TargetDown =>
        deserialize_loop rest svcs { ctx with target := Target.Down } acts
      | SessionField.TargetUp =>
        deserialize_loop rest svcs { ctx with target := Target.Up } acts
      | SessionField.TargetRestart =>
        deserialize_loop rest svcs { ctx with target := Target.Restart } acts
      | SessionField.TargetOnce =>
        deserialize_loop rest svcs { ctx with target := Target.Once } acts
      | SessionField.Pid =>
        if 4 ≤ rest.length then
          let v := decodeI32 (natOfLE (rest.take 4))
          deserialize_loop (rest.drop 4) svcs
            { ctx with pid := if v ≤ 0 then Option.none else some v } acts
        else Except.error ()
      | SessionField.SupervisorPid =>
        if 4 ≤ rest.length then
          let v := decodeI32 (natOfLE (rest.take 4))
          deserialize_loop (rest.drop 4) svcs
            { ctx with supervisor_pid := if v ≤ 0 then Option.none else some v } acts
        else Except.error ()
      | SessionField.StdinPipe =>
        if 8 ≤ rest.length then
          let r := decodeI32 (natOfLE (rest.take 4))
          let w := decodeI32 (natOfLE ((rest.drop 4).take 4))
          deserialize_loop (rest.drop 8) svcs { ctx with stdin_pipe := some (r, w) } acts
        else Except.error ()
      | SessionField.ReturnValue =>
        if 4 ≤ rest.length then
          deserialize_loop (rest.drop 4) svcs
            { ctx with exit_code := some (decodeI32 (natOfLE (rest.take 4))) } acts
        else Except.error ()
      | SessionField.SettlePipe =>
        if 8 ≤ rest.length then
          let r := decodeI32 (natOfLE (rest.take 4))
          let w := decodeI32 (natOfLE ((rest.drop 4).take 4))
          deserialize_loop (rest.drop 8) svcs { ctx with settle_pipe := some (r, w) } acts
        else Except.error ()
      | SessionField.AttemptCount =>
        if 4 ≤ rest.length then
          deserialize_loop (rest.drop 4) svcs
            { ctx with attempt_count := natOfLE (rest.take 4) } acts
        else Except.error ()
      | SessionField.TimeSec =>
        if 8 ≤ rest.length then
          deserialize_loop (rest.drop 8) svcs
            { ctx with time_sec := decodeI64 (natOfLE (rest.take 8)) } acts
        else Except.error ()
      | SessionField.TimeNsec =>
        if 8 ≤ rest.length then
          let v := decodeI64 (natOfLE (rest.take 8))
          deserialize_loop (rest.drop 8) svcs
            { ctx with time_nsec := if 0 ≤ v ∧ v ≤ 999999999 then v else 0 } acts
        else Except.error ()
      | SessionField.Ready =>
        deserialize_loop rest svcs { ctx with ready := true } acts
termination_by bytes.length
decreasing_by
  all_goals simp only [List.length_cons, List.length_drop]
  all_goals omega

/-- SessionFd::deserialize from src/connate/session.rs. -/
def deserialize (bytes : List Nat) (svcs : List Service) :
    Except Unit (List Service × List Action) :=
  deserialize_loop bytes svcs (ParseCtx.dflt Option.none) []

/-- Modelled from the spec: the freshly initialised service record the
build-generated SERVICES.initialize produces before a session resume
(not part of the sources): state Down, the config-default initial
target, no pids or pipes, counter zero, time of initialisation, not
ready, dirty, so that every service is reassessed once after load. -/
def fresh_service (cfg : ServiceConfig) (now : Timespec) : Service :=
  { state := State.Down
  , target := cfg.init_target
  , pid := Option.none
  , supervisor_pid := Option.none
  , stdin_pipe := Option.none
  , attempt_count := 0
  , exit_code := Option.none
  , time := now
  , ready := false
  , dirty := true
  , settle_pipe := Option.none
  , cfg := cfg }

/-- Modelled from the spec: the freshly initialised service table. -/
def fresh_table (cfgs : List ServiceConfig) (now : Timespec) : List Service :=
  cfgs.map (fun cfg => fresh_service cfg now)

/-- natLE produces exactly k bytes. -/
theorem natLE_length : ∀ (k n : Nat), (natLE k n).length = k := by
  intro k
  induction k with
  | zero => intro n; rfl
  | succ k ih =>
    intro n
    rw [natLE, List.length_cons, ih]

/-- Little-endian decode inverts the k-byte encode modulo 256^k. -/
theorem natOfLE_natLE : ∀ (k n : Nat), natOfLE (natLE k n) = n % 256 ^ k := by
  intro k
  induction k with
  | zero =>
    intro n
    rw [natLE, natOfLE, pow_zero, Nat.mod_one]
  | succ k ih =>
    intro n
    rw [natLE, natOfLE, ih]
    rw [pow_succ, mul_comm (256 ^ k) 256, Nat.mod_mul]

/-- ofByte inverts asByte. -/
theorem ofByte_asByte (f : SessionField) : SessionField.ofByte f.asByte = some f := by
  cases f <;> rfl

/-- i32 decode inverts encode on the i32 range. -/
theorem decode_i32le (v : Int) (h1 : -(2 ^ 31) ≤ v) (h2 : v < 2 ^ 31) :
    decodeI32 (natOfLE (i32le v)) = v := by
  rw [i32le, natOfLE_natLE]
  have hnn : 0 ≤ v % 2 ^ 32 := Int.emod_nonneg v (by norm_num)
  have hlt : v % 2 ^ 32 < 2 ^ 32 := Int.emod_lt_of_pos v (by norm_num)
  have hcast : (((v % 2 ^ 32).toNat : Nat) : Int) = v % 2 ^ 32 := Int.toNat_of_nonneg hnn
  have hmod : (v % 2 ^ 32).toNat % 256 ^ 4 = (v % 2 ^ 32).toNat := by
    apply Nat.mod_eq_of_lt
    have : (256 : Nat) ^ 4 = 2 ^ 32 := by norm_num
    rw [this]
    omega
  rw [hmod, decodeI32]
  have hv : v % 2 ^ 32 = if 0 ≤ v then v else v + 2 ^ 32 := by
    split
    · rw [Int.emod_eq_of_lt (by omega) (by omega)]
    · omega
  split <;> rename_i hsplit <;> omega

/-- i64 decode inverts encode on the i64 range. -/
theorem decode_i64le (v : Int) (h1 : -(2 ^ 63) ≤ v) (h2 : v < 2 ^ 63) :
    decodeI64 (natOfLE (i64le v)) = v := by
  rw [i64le, natOfLE_natLE]
  have hnn : 0 ≤ v % 2 ^ 64 := Int.emod_nonneg v (by norm_num)
  have hlt : v % 2 ^ 64 < 2 ^ 64 := Int.emod_lt_of_pos v (by norm_num)
  have hcast : (((v % 2 ^ 64).toNat : Nat) : Int) = v % 2 ^ 64 := Int.toNat_of_nonneg hnn
  have hmod : (v % 2 ^ 64).toNat % 256 ^ 8 = (v % 2 ^ 64).toNat := by
    apply Nat.mod_eq_of_lt
    have : (256 : Nat) ^ 8 = 2 ^ 64 := by norm_num
    rw [this]
    omega
  rw [hmod, decodeI64]
  split <;> rename_i hsplit <;> omega

/-- One parser step: a state glyph sets the accumulated state. -/
theorem loop_state (st : State) (rest : List Nat) (svcs : List Service) (ctx : ParseCtx)
    (acts : List Action) :
    deserialize_loop ((state_field st).asByte :: rest) svcs ctx acts =
      deserialize_loop rest svcs { ctx with state := st } acts := by
  cases st <;>
    (rw [deserialize_loop]
     norm_num [state_field, SessionField.asByte, SessionField.ofByte])

/-- One parser step: a target glyph sets the accumulated target. -/
theorem loop_target (t : Target) (rest : List Nat) (svcs : List Service) (ctx : ParseCtx)
    (acts : List Action) :
    deserialize_loop ((target_field t).asByte :: rest) svcs ctx acts =
      deserialize_loop rest svcs { ctx with target := t } acts := by
  cases t <;>
    (rw [deserialize_loop]
     norm_num [target_field, SessionField.asByte, SessionField.ofByte])

/-- One parser step: the Ready flag byte. -/
theorem loop_ready (rest : List Nat) (svcs : List Service) (ctx : ParseCtx)
    (acts : List Action) :
    deserialize_loop (SessionField.Ready.asByte :: rest) svcs ctx acts =
      deserialize_loop rest svcs { ctx with ready := true } acts := by
  rw [deserialize_loop]
  norm_num [SessionField.asByte, SessionField.ofByte]

/-- One parser step: a positive in-range pid is taken verbatim. -/
theorem loop_pid (p : Int) (h1 : 0 < p) (h2 : p < 2 ^ 31) (rest : List Nat)
    (svcs : List Service) (ctx : ParseCtx) (acts : List Action) :
    deserialize_loop (SessionField.Pid.asByte :: (i32le p ++ rest)) svcs ctx acts =
      deserialize_loop rest svcs { ctx with pid := some p } acts := by
  have hlen : (i32le p).length = 4 := by rw [i32le, natLE_length]
  rw [deserialize_loop]
  norm_num [SessionField.asByte, SessionField.ofByte]
  rw [if_pos (by omega)]
  rw [List.take_left' hlen, List.drop_left' hlen]
  rw [decode_i32le p (by omega) h2]
  rw [if_neg (by omega)]

/-- One parser step: a positive in-range supervisor pid. -/
theorem loop_supervisor_pid (p : Int) (h1 : 0 < p) (h2 : p < 2 ^ 31) (rest : List Nat)
    (svcs : List Service) (ctx : ParseCtx) (acts : List Action) :
    deserialize_loop (SessionField.SupervisorPid.asByte :: (i32le p ++ rest)) svcs ctx acts =
      deserialize_loop rest svcs { ctx with supervisor_pid := some p } acts := by
  have hlen : (i32le p).length = 4 := by rw [i32le, natLE_length]
  rw [deserialize_loop]
  norm_num [SessionField.asByte, SessionField.ofByte]
  rw [if_pos (by omega)]
  rw [List.take_left' hlen, List.drop_left' hlen]
  rw [decode_i32le p (by omega) h2]
  rw [if_neg (by omega)]

/-- One parser step: an exit code. -/
theorem loop_exit_code (v : Int) (h1 : -(2 ^ 31) ≤ v) (h2 : v < 2 ^ 31) (rest : List Nat)
    (svcs : List Service) (ctx : ParseCtx) (acts : List Action) :
    deserialize_loop (SessionField.ReturnValue.asByte :: (i32le v ++ rest)) svcs ctx acts =
      deserialize_loop rest svcs { ctx with exit_code := some v } acts := by
  have hlen : (i32le v).length = 4 := by rw [i32le, natLE_length]
  rw [deserialize_loop]
  norm_num [SessionField.asByte, SessionField.ofByte]
  rw [if_pos (by omega)]
  rw [List.take_left' hlen, List.drop_left' hlen]
  rw [decode_i32le v h1 h2]

/-- One parser step: a stdin pipe fd pair. -/
theorem loop_stdin_pipe (r w : Int)
    (hr1 : -(2 ^ 31) ≤ r) (hr2 : r < 2 ^ 31) (hw1 : -(2 ^ 31) ≤ w) (hw2 : w < 2 ^ 31)
    (rest : List Nat) (svcs : List Service) (ctx : ParseCtx) (acts : List Action) :
    deserialize_loop
        (SessionField.StdinPipe.asByte :: ((i32le r ++ i32le w) ++ rest)) svcs ctx acts =
      deserialize_loop rest svcs { ctx with stdin_pipe := some (r, w) } acts := by
  have hlr : (i32le r).length = 4 := by rw [i32le, natLE_length]
  have hlw : (i32le w).length = 4 := by rw [i32le, natLE_length]
  have hl8 : (i32le r ++ i32le w).length = 8 := by rw [List.length_append, hlr, hlw]
  rw [deserialize_loop]
  norm_num [SessionField.asByte, SessionField.ofByte]
  rw [if_pos (by omega)]
  rw [List.take_left' hlr]
  rw [List.drop_left' hlr, List.take_left' hlw]
  rw [← List.append_assoc]
  rw [List.drop_left' hl8]
  rw [decode_i32le r hr1 hr2, decode_i32le w hw1 hw2]

/-- One parser step: a settle pipe fd pair. -/
theorem loop_settle_pipe (r w : Int)
    (hr1 : -(2 ^ 31) ≤ r) (hr2 : r < 2 ^ 31) (hw1 : -(2 ^ 31) ≤ w) (hw2 : w < 2 ^ 31)
    (rest : List Nat) (svcs : List Service) (ctx : ParseCtx) (acts : List Action) :
    deserialize_loop
        (SessionField.SettlePipe.asByte :: ((i32le r ++ i32le w) ++ rest)) svcs ctx acts =
      deserialize_loop rest svcs { ctx with settle_pipe := some (r, w) } acts := by
  have hlr : (i32le r).length = 4 := by rw [i32le, natLE_length]
  have hlw : (i32le w).length = 4 := by rw [i32le, natLE_length]
  have hl8 : (i32le r ++ i32le w).length = 8 := by rw [List.length_append, hlr, hlw]
  rw [deserialize_loop]
  norm_num [SessionField.asByte, SessionField.ofByte]
  rw [if_pos (by omega)]
  rw [List.take_left' hlr]
  rw [List.drop_left' hlr, List.take_left' hlw]
  rw [← List.append_assoc]
  rw [List.drop_left' hl8]
  rw [decode_i32le r hr1 hr2, decode_i32le w hw1 hw2]

/-- One parser step: an attempt count (u32). -/
theorem loop_attempt_count (n : Nat) (h : n < 2 ^ 32) (rest : List Nat)
    (svcs : List Service) (ctx : ParseCtx) (acts : List Action) :
    deserialize_loop (SessionField.AttemptCount.asByte :: (natLE 4 n ++ rest)) svcs ctx acts =
      deserialize_loop rest svcs { ctx with attempt_count := n } acts := by
  have hlen : (natLE 4 n).length = 4 := natLE_length 4 n
  have hdec : natOfLE (natLE 4 n) = n := by
    rw [natOfLE_natLE]
    apply Nat.mod_eq_of_lt
    have h4 : (256 : Nat) ^ 4 = 2 ^ 32 := by norm_num
    omega
  rw [deserialize_loop]
  norm_num [SessionField.asByte, SessionField.ofByte]
  rw [if_pos (by omega)]
  rw [List.take_left' hlen, List.drop_left' hlen, hdec]

/-- One parser step: the time seconds field. -/
theorem loop_time_sec (v : Int) (h1 : -(2 ^ 63) ≤ v) (h2 : v < 2 ^ 63) (rest : List Nat)
    (svcs : List Service) (ctx : ParseCtx) (acts : List Action) :
    deserialize_loop (SessionField.TimeSec.asByte :: (i64le v ++ rest)) svcs ctx acts =
      deserialize_loop rest svcs { ctx with time_sec := v } acts := by
  have hlen : (i64le v).length = 8 := by rw [i64le, natLE_length]
  rw [deserialize_loop]
  norm_num [SessionField.asByte, SessionField.ofByte]
  rw [if_pos (by omega)]
  rw [List.take_left' hlen, List.drop_left' hlen]
  rw [decode_i64le v h1 h2]

/-- One parser step: the time nanoseconds field, in range so not
reset. -/
theorem loop_time_nsec (v : Int) (h1 : 0 ≤ v) (h2 : v ≤ 999999999) (rest : List Nat)
    (svcs : List Service) (ctx : ParseCtx) (acts : List Action) :
    deserialize_loop (SessionField.TimeNsec.asByte :: (i64le v ++ rest)) svcs ctx acts =
      deserialize_loop rest svcs { ctx with time_nsec := v } acts := by
  have hlen : (i64le v).length = 8 := by rw [i64le, natLE_length]
  rw [deserialize_loop]
  norm_num [SessionField.asByte, SessionField.ofByte]
  rw [if_pos (by omega)]
  rw [List.take_left' hlen, List.drop_left' hlen]
  rw [decode_i64le v (by omega) (by omega)]
  rw [if_pos ⟨h1, h2⟩]


/-- One parser step: ServiceStart reads the name length and name, looks
the service up, and resets the accumulator. -/
theorem loop_start (name : List Nat) (hname : name.length ≤ MSG_SVC_NAME_SIZE)
    (rest : List Nat) (svcs : List Service) (ctx : ParseCtx) (acts : List Action) :
    deserialize_loop
        (SessionField.ServiceStart.asByte :: (natLE 2 name.length ++ (name ++ rest)))
        svcs ctx acts =
      deserialize_loop rest svcs (ParseCtx.dflt (find_by_name svcs name)) acts := by
  have hlen2 : (natLE 2 name.length).length = 2 := natLE_length 2 _
  have hdec : natOfLE (natLE 2 name.length) = name.length := by
    rw [natOfLE_natLE]
    apply Nat.mod_eq_of_lt
    have hsz : MSG_SVC_NAME_SIZE < 256 ^ 2 := by norm_num [MSG_SVC_NAME_SIZE, PIPE_BUF]
    omega
  have hsz2 : name.length ≤ SESSION_SERVICE_SIZE := by
    have hle : MSG_SVC_NAME_SIZE ≤ SESSION_SERVICE_SIZE := by
      norm_num [MSG_SVC_NAME_SIZE, SESSION_SERVICE_SIZE, PIPE_BUF]
    omega
  rw [deserialize_loop]
  norm_num [SessionField.asByte, SessionField.ofByte]
  rw [if_pos (by omega)]
  rw [List.take_left' hlen2, hdec]
  rw [if_pos hsz2]
  rw [if_pos (by omega)]
  rw [List.drop_left' hlen2]
  rw [List.take_left]
  have hdrop : List.drop (2 + name.length) ((natLE 2 name.length) ++ (name ++ rest)) = rest := by
    rw [← List.append_assoc]
    have hl : ((natLE 2 name.length) ++ name).length = 2 + name.length := by
      rw [List.length_append, hlen2]
    rw [List.drop_left' hl]
  rw [hdrop]

/-- One parser step: ServiceEnd commits to a recognized service. -/
theorem loop_end_known (rest : List Nat) (svcs : List Service) (ctx : ParseCtx)
    (acts : List Action) (j : Nat) (s : Service)
    (hj : ctx.svc = some j) (hs : svcs.get? j = some s) :
    deserialize_loop (SessionField.ServiceEnd.asByte :: rest) svcs ctx acts =
      deserialize_loop rest (svcs.set j (apply_ctx_to_service s ctx).1)
        { ctx with stdin_pipe := Option.none, settle_pipe := Option.none }
        (acts ++ (apply_ctx_to_service s ctx).2) := by
  rw [deserialize_loop]
  have hs2 : svcs[j]? = some s := by
    rw [← List.get?_eq_getElem?]
    exact hs
  norm_num [SessionField.asByte, SessionField.ofByte, hj, hs2]

/-- One parser step: ServiceEnd for an unknown name emits the stray
cleanup actions and leaves the table alone. -/
theorem loop_end_unknown (rest : List Nat) (svcs : List Service) (ctx : ParseCtx)
    (acts : List Action) (hj : ctx.svc = Option.none) :
    deserialize_loop (SessionField.ServiceEnd.asByte :: rest) svcs ctx acts =
      deserialize_loop rest svcs
        { ctx with stdin_pipe := Option.none, settle_pipe := Option.none }
        (acts ++ unknown_service_actions ctx) := by
  rw [deserialize_loop]
  norm_num [SessionField.asByte, SessionField.ofByte, hj]

/-- Optional pid within positive i32 range. -/
def pid_ok (o : Option Int) : Bool :=
  match o with
  | some p => decide (0 < p ∧ p < 2 ^ 31)
  | Option.none => true

/-- Optional fd pair within i32 range. -/
def fd_pair_ok (o : Option (Int × Int)) : Bool :=
  match o with
  | some (r, w) =>
    decide (-(2 ^ 31) ≤ r ∧ r < 2 ^ 31 ∧ -(2 ^ 31) ≤ w ∧ w < 2 ^ 31)
  | Option.none => true

/-- Optional exit code within i32 range. -/
def exit_ok (o : Option Int) : Bool :=
  match o with
  | some v => decide (-(2 ^ 31) ≤ v ∧ v < 2 ^ 31)
  | Option.none => true

/-- Declared-range check for one record: pids positive i32, fds and
exit code i32, counter u32, seconds i64, nanoseconds in [0, 10^9), name
within the message size limit. -/
def record_in_range (svc : Service) : Bool :=
  pid_ok svc.pid &&
  pid_ok svc.supervisor_pid &&
  fd_pair_ok svc.stdin_pipe &&
  fd_pair_ok svc.settle_pipe &&
  exit_ok svc.exit_code &&
  decide (svc.attempt_count < 2 ^ 32) &&
  decide (-(2 ^ 63) ≤ svc.time.tv_sec ∧ svc.time.tv_sec < 2 ^ 63) &&
  decide (0 ≤ svc.time.tv_nsec ∧ svc.time.tv_nsec ≤ 999999999) &&
  decide (svc.cfg.name.length ≤ MSG_SVC_NAME_SIZE)

/-- The accumulator the parser holds after reading exactly the fields
save emits for svc, matched to table slot o. -/
def ctx_of_service (svc : Service) (o : Option Nat) : ParseCtx :=
  { svc := o
  , state := svc.state
  , target := svc.target
  , pid := svc.pid
  , supervisor_pid := svc.supervisor_pid
  , stdin_pipe := svc.stdin_pipe
  , exit_code := svc.exit_code
  , attempt_count := svc.attempt_count
  , time_sec := svc.time.tv_sec
  , time_nsec := svc.time.tv_nsec
  , ready := svc.ready
  , settle_pipe := svc.settle_pipe }

/-- Parsing the optional pid segment. -/
theorem loop_pid_opt (o : Option Int) (ho : pid_ok o = true)
    (rest : List Nat) (svcs : List Service) (ctx : ParseCtx) (acts : List Action)
    (hc : ctx.pid = Option.none) :
    deserialize_loop (seg_pid o ++ rest) svcs ctx acts =
      deserialize_loop rest svcs { ctx with pid := o } acts := by
  cases o with
  | none =>
    rw [show seg_pid Option.none = [] from rfl, List.nil_append]
    have hctx : ({ ctx with pid := Option.none } : ParseCtx) = ctx := by
      cases ctx
      cases hc
      rfl
    rw [hctx]
  | some p =>
    rw [show seg_pid (some p) = SessionField.Pid.asByte :: i32le p from rfl,
        List.cons_append]
    simp only [pid_ok, decide_eq_true_eq] at ho
    exact loop_pid p ho.1 ho.2 rest svcs ctx acts

/-- Parsing the optional supervisor pid segment. -/
theorem loop_sup_opt (o : Option Int) (ho : pid_ok o = true)
    (rest : List Nat) (svcs : List Service) (ctx : ParseCtx) (acts : List Action)
    (hc : ctx.supervisor_pid = Option.none) :
    deserialize_loop (seg_sup o ++ rest) svcs ctx acts =
      deserialize_loop rest svcs { ctx with supervisor_pid := o } acts := by
  cases o with
  | none =>
    rw [show seg_sup Option.none = [] from rfl, List.nil_append]
    have hctx : ({ ctx with supervisor_pid := Option.none } : ParseCtx) = ctx := by
      cases ctx
      cases hc
      rfl
    rw [hctx]
  | some p =>
    rw [show seg_sup (some p) = SessionField.SupervisorPid.asByte :: i32le p from rfl,
        List.cons_append]
    simp only [pid_ok, decide_eq_true_eq] at ho
    exact loop_supervisor_pid p ho.1 ho.2 rest svcs ctx acts

/-- Parsing the optional stdin pipe segment. -/
theorem loop_stdin_opt (o : Option (Int × Int)) (ho : fd_pair_ok o = true)
    (rest : List Nat) (svcs : List Service) (ctx : ParseCtx) (acts : List Action)
    (hc : ctx.stdin_pipe = Option.none) :
    deserialize_loop (seg_stdin o ++ rest) svcs ctx acts =
      deserialize_loop rest svcs { ctx with stdin_pipe := o } acts := by
  cases o with
  | none =>
    rw [show seg_stdin Option.none = [] from rfl, List.nil_append]
    have hctx : ({ ctx with stdin_pipe := Option.none } : ParseCtx) = ctx := by
      cases ctx
      cases hc
      rfl
    rw [hctx]
  | some rw2 =>
    obtain ⟨r, w⟩ := rw2
    rw [show seg_stdin (some (r, w)) =
          SessionField.StdinPipe.asByte :: (i32le r ++ i32le w) from rfl,
        List.cons_append]
    simp only [fd_pair_ok, decide_eq_true_eq] at ho
    exact loop_stdin_pipe r w ho.1 ho.2.1 ho.2.2.1 ho.2.2.2 rest svcs ctx acts

/-- Parsing the optional settle pipe segment. -/
theorem loop_settle_opt (o : Option (Int × Int)) (ho : fd_pair_ok o = true)
    (rest : List Nat) (svcs : List Service) (ctx : ParseCtx) (acts : List Action)
    (hc : ctx.settle_pipe = Option.none) :
    deserialize_loop (seg_settle o ++ rest) svcs ctx acts =
      deserialize_loop rest svcs { ctx with settle_pipe := o } acts := by
  cases o with
  | none =>
    rw [show seg_settle Option.none = [] from rfl, List.nil_append]
    have hctx : ({ ctx with settle_pipe := Option.none } : ParseCtx) = ctx := by
      cases ctx
      cases hc
      rfl
    rw [hctx]
  | some rw2 =>
    obtain ⟨r, w⟩ := rw2
    rw [show seg_settle (some (r, w)) =
          SessionField.SettlePipe.asByte :: (i32le r ++ i32le w) from rfl,
        List.cons_append]
    simp only [fd_pair_ok, decide_eq_true_eq] at ho
    exact loop_settle_pipe r w ho.1 ho.2.1 ho.2.2.1 ho.2.2.2 rest svcs ctx acts

/-- Parsing the optional exit code segment. -/
theorem loop_exit_opt (o : Option Int) (ho : exit_ok o = true)
    (rest : List Nat) (svcs : List Service) (ctx : ParseCtx) (acts : List Action)
    (hc : ctx.exit_code = Option.none) :
    deserialize_loop (seg_exit o ++ rest) svcs ctx acts =
      deserialize_loop rest svcs { ctx with exit_code := o } acts := by
  cases o with
  | none =>
    rw [show seg_exit Option.none = [] from rfl, List.nil_append]
    have hctx : ({ ctx with exit_code := Option.none } : ParseCtx) = ctx := by
      cases ctx
      cases hc
      rfl
    rw [hctx]
  | some v =>
    rw [show seg_exit (some v) = SessionField.ReturnValue.asByte :: i32le v from rfl,
        List.cons_append]
    simp only [exit_ok, decide_eq_true_eq] at ho
    exact loop_exit_code v ho.1 ho.2 rest svcs ctx acts

/-- Parsing the conditional attempt count segment. -/
theorem loop_attempt_if (n : Nat) (hn : n < 2 ^ 32)
    (rest : List Nat) (svcs : List Service) (ctx : ParseCtx) (acts : List Action)
    (hc : ctx.attempt_count = 0) :
    deserialize_loop (seg_attempt n ++ rest) svcs ctx acts =
      deserialize_loop rest svcs { ctx with attempt_count := n } acts := by
  by_cases h0 : n = 0
  · subst h0
    rw [show seg_attempt 0 = [] from rfl, List.nil_append]
    have hctx : ({ ctx with attempt_count := 0 } : ParseCtx) = ctx := by
      cases ctx
      cases hc
      rfl
    rw [hctx]
  · rw [seg_attempt, if_pos h0, List.cons_append]
    exact loop_attempt_count n hn rest svcs ctx acts

/-- Parsing the conditional time seconds segment. -/
theorem loop_sec_if (v : Int) (h1 : -(2 ^ 63) ≤ v) (h2 : v < 2 ^ 63)
    (rest : List Nat) (svcs : List Service) (ctx : ParseCtx) (acts : List Action)
    (hc : ctx.time_sec = 0) :
    deserialize_loop (seg_sec v ++ rest) svcs ctx acts =
      deserialize_loop rest svcs { ctx with time_sec := v } acts := by
  by_cases h0 : v = 0
  · subst h0
    rw [show seg_sec 0 = [] from rfl, List.nil_append]
    have hctx : ({ ctx with time_sec := 0 } : ParseCtx) = ctx := by
      cases ctx
      cases hc
      rfl
    rw [hctx]
  · rw [seg_sec, if_pos h0, List.cons_append]
    exact loop_time_sec v h1 h2 rest svcs ctx acts

/-- Parsing the conditional time nanoseconds segment. -/
theorem loop_nsec_if (v : Int) (h1 : 0 ≤ v) (h2 : v ≤ 999999999)
    (rest : List Nat) (svcs : List Service) (ctx : ParseCtx) (acts : List Action)
    (hc : ctx.time_nsec = 0) :
    deserialize_loop (seg_nsec v ++ rest) svcs ctx acts =
      deserialize_loop rest svcs { ctx with time_nsec := v } acts := by
  by_cases h0 : v = 0
  · subst h0
    rw [show seg_nsec 0 = [] from rfl, List.nil_append]
    have hctx : ({ ctx with time_nsec := 0 } : ParseCtx) = ctx := by
      cases ctx
      cases hc
      rfl
    rw [hctx]
  · rw [seg_nsec, if_pos h0, List.cons_append]
    exact loop_time_nsec v h1 h2 rest svcs ctx acts

/-- Parsing the conditional ready flag segment. -/
theorem loop_ready_if (b : Bool)
    (rest : List Nat) (svcs : List Service) (ctx : ParseCtx) (acts : List Action)
    (hc : ctx.ready = false) :
    deserialize_loop (seg_ready b ++ rest) svcs ctx acts =
      deserialize_loop rest svcs { ctx with ready := b } acts := by
  cases b with
  | false =>
    rw [show seg_ready false = [] from rfl, List.nil_append]
    have hctx : ({ ctx with ready := false } : ParseCtx) = ctx := by
      cases ctx
      cases hc
      rfl
    rw [hctx]
  | true =>
    rw [show seg_ready true = [SessionField.Ready.asByte] from rfl,
        List.singleton_append]
    exact loop_ready rest svcs ctx acts

/-- Parsing one serialized record up to its ServiceEnd byte rebuilds the
accumulated field context of the saved service, matched by name against
the table. -/
theorem parse_record_body (svc : Service) (hr : record_in_range svc = true)
    (bytes : List Nat) (hser : serialize_service svc = some bytes)
    (rest : List Nat) (svcs : List Service) (ctx : ParseCtx) (acts : List Action) :
    deserialize_loop (bytes ++ rest) svcs ctx acts =
      deserialize_loop (SessionField.ServiceEnd.asByte :: rest) svcs
        (ctx_of_service svc (find_by_name svcs svc.cfg.name)) acts := by
  simp only [record_in_range, Bool.and_eq_true, decide_eq_true_eq] at hr
  obtain ⟨⟨⟨⟨⟨⟨⟨⟨hpid, hsup⟩, hstdin⟩, hsettle⟩, hexit⟩, hatt⟩, hsec⟩, hnsec⟩, hname⟩ := hr
  simp only [serialize_service] at hser
  split at hser
  · injection hser with hb
    subst hb
    simp only [List.append_assoc, List.singleton_append, List.cons_append,
      List.nil_append]
    rw [loop_start svc.cfg.name hname, loop_state, loop_target,
        loop_pid_opt svc.pid hpid, loop_sup_opt svc.supervisor_pid hsup,
        loop_stdin_opt svc.stdin_pipe hstdin, loop_exit_opt svc.exit_code hexit,
        loop_settle_opt svc.settle_pipe hsettle,
        loop_attempt_if svc.attempt_count hatt,
        loop_sec_if svc.time.tv_sec hsec.1 hsec.2,
        loop_nsec_if svc.time.tv_nsec hnsec.1 hnsec.2,
        loop_ready_if svc.ready]
    all_goals rfl
  · exact Option.noConfusion hser

theorem seg_pid_len (o : Option Int) : (seg_pid o).length ≤ 5 := by
  cases o <;> simp [seg_pid, i32le, natLE_length]

theorem seg_sup_len (o : Option Int) : (seg_sup o).length ≤ 5 := by
  cases o <;> simp [seg_sup, i32le, natLE_length]

theorem seg_stdin_len (o : Option (Int × Int)) : (seg_stdin o).length ≤ 9 := by
  cases o with
  | none => simp [seg_stdin]
  | some rw2 => obtain ⟨r, w⟩ := rw2; simp [seg_stdin, i32le, natLE_length]

theorem seg_settle_len (o : Option (Int × Int)) : (seg_settle o).length ≤ 9 := by
  cases o with
  | none => simp [seg_settle]
  | some rw2 => obtain ⟨r, w⟩ := rw2; simp [seg_settle, i32le, natLE_length]

theorem seg_exit_len (o : Option Int) : (seg_exit o).length ≤ 5 := by
  cases o <;> simp [seg_exit, i32le, natLE_length]

theorem seg_attempt_len (n : Nat) : (seg_attempt n).length ≤ 5 := by
  rw [seg_attempt]
  split <;> simp [natLE_length]

theorem seg_sec_len (v : Int) : (seg_sec v).length ≤ 9 := by
  rw [seg_sec]
  split <;> simp [i64le, natLE_length]

theorem seg_nsec_len (v : Int) : (seg_nsec v).length ≤ 9 := by
  rw [seg_nsec]
  split <;> simp [i64le, natLE_length]

theorem seg_ready_len (b : Bool) : (seg_ready b).length ≤ 1 := by
  rw [seg_ready]
  split <;> simp

/-- A record whose name fits the message limit always fits the
per-service write buffer, so serialization succeeds. -/
theorem serialize_isSome (svc : Service)
    (hname : svc.cfg.name.length ≤ MSG_SVC_NAME_SIZE) :
    ∃ b, serialize_service svc = some b := by
  simp only [serialize_service]
  split
  next hlen => exact ⟨_, rfl⟩
  next hlen =>
  exfalso
  apply hlen
  have h1 := seg_pid_len svc.pid
  have h2 := seg_sup_len svc.supervisor_pid
  have h3 := seg_stdin_len svc.stdin_pipe
  have h4 := seg_exit_len svc.exit_code
  have h5 := seg_settle_len svc.settle_pipe
  have h6 := seg_attempt_len svc.attempt_count
  have h7 := seg_sec_len svc.time.tv_sec
  have h8 := seg_nsec_len svc.time.tv_nsec
  have h9 := seg_ready_len svc.ready
  have hM : MSG_SVC_NAME_SIZE = 4085 := by decide
  have hS : SESSION_SERVICE_SIZE = 4166 := by decide
  simp only [List.length_append, List.length_cons, List.length_nil,
    List.length_singleton, natLE_length]
  omega

/-- Saving a table of records with in-limit names succeeds. -/
theorem save_session_isSome (recs : List Service)
    (h : ∀ r ∈ recs, r.cfg.name.length ≤ MSG_SVC_NAME_SIZE) :
    ∃ bs, save_session recs = some bs := by
  induction recs with
  | nil => exact ⟨[], rfl⟩
  | cons r tl ih =>
    obtain ⟨b, hb⟩ := serialize_isSome r (h r (List.mem_cons_self r tl))
    obtain ⟨bs, hbs⟩ := ih (fun x hx => h x (List.mem_cons_of_mem r hx))
    exact ⟨b ++ bs, by rw [save_session, hb, hbs]⟩

/-- Committing the parsed fields of r onto a freshly initialised record
with r's config restores r, with dirty forced true; no stray-fd actions
arise when non-loggers carry no stdin pipe. -/
theorem apply_ctx_fresh (r : Service) (now : Timespec) (o : Option Nat)
    (hl : r.cfg.is_logger = false → r.stdin_pipe = Option.none) :
    apply_ctx_to_service (fresh_service r.cfg now) (ctx_of_service r o) =
      ({ r with dirty := true }, []) := by
  by_cases hL : r.cfg.is_logger
  · simp only [apply_ctx_to_service, ctx_of_service, fresh_service, hL, if_true]
  · have hLf : r.cfg.is_logger = false := by
      simpa using hL
    have hst : r.stdin_pipe = Option.none := hl hLf
    simp only [apply_ctx_to_service, ctx_of_service, fresh_service, hLf,
      Bool.false_eq_true, if_false, hst]

/-- Name lookup lands on the freshly initialised slot right after the
prefix when no prefix entry shares the name. -/
theorem find_by_name_append (pre : List Service) (r : Service) (tl : List Service)
    (now : Timespec) (hpre : ∀ s ∈ pre, s.cfg.name ≠ r.cfg.name) :
    find_by_name (pre ++ fresh_service r.cfg now :: tl) r.cfg.name =
      some pre.length := by
  rw [find_by_name, List.findIdx?_append]
  have h1 : List.findIdx? (fun s => s.cfg.name = r.cfg.name) pre = Option.none := by
    rw [List.findIdx?_eq_none_iff]
    intro x hx
    simpa using hpre x hx
  rw [h1]
  simp [List.findIdx?_cons, fresh_service]

/-- Parsing the concatenated save bytes of a block of records against a
table whose tail is freshly initialised with the same configs, with all
names distinct, rewrites each fresh slot to the saved record with dirty
set. -/
theorem loop_save_chunk (post : List Service) :
    ∀ (pre : List Service) (now : Timespec) (bytes rest : List Nat)
      (ctx : ParseCtx) (acts : List Action),
    save_session post = some bytes →
    (∀ r ∈ post, record_in_range r = true) →
    (∀ r ∈ post, r.cfg.is_logger = false → r.stdin_pipe = Option.none) →
    ((pre ++ post).map (fun s => s.cfg.name)).Pairwise (fun a b => a ≠ b) →
    ∃ ctx2, deserialize_loop (bytes ++ rest)
        (pre ++ fresh_table (post.map (fun x => x.cfg)) now) ctx acts =
      deserialize_loop rest
        (pre ++ post.map (fun x => { x with dirty := true })) ctx2 acts := by
  induction post with
  | nil =>
    intro pre now bytes rest ctx acts hsave _ _ _
    have hb : bytes = [] := by
      simpa [save_session] using hsave.symm
    subst hb
    exact ⟨ctx, by simp [fresh_table]⟩
  | cons r tl ih =>
    intro pre now bytes rest ctx acts hsave hr hlog hnames
    rcases hsb : serialize_service r with _ | b
    · rw [save_session, hsb] at hsave
      exact absurd hsave (by simp)
    rcases hst : save_session tl with _ | bs
    · rw [save_session, hsb, hst] at hsave
      exact absurd hsave (by simp)
    rw [save_session, hsb, hst] at hsave
    injection hsave with hb
    subst hb
    have hr0 : record_in_range r = true := hr r (List.mem_cons_self r tl)
    have hpre : ∀ s ∈ pre, s.cfg.name ≠ r.cfg.name := by
      intro s hs heq
      have hmap :
          ((pre ++ r :: tl).map (fun x => x.cfg.name)).Pairwise
            (fun a b => a ≠ b) := hnames
      rw [List.map_append, List.pairwise_append] at hmap
      exact hmap.2.2 s.cfg.name (List.mem_map_of_mem _ hs) r.cfg.name
        (by simp) heq
    have hfind := find_by_name_append pre r
      (fresh_table (tl.map (fun x => x.cfg)) now) now hpre
    have h1 := parse_record_body r hr0 b hsb (bs ++ rest)
      (pre ++ fresh_service r.cfg now :: fresh_table (tl.map (fun x => x.cfg)) now)
      ctx acts
    have hget : (pre ++ fresh_service r.cfg now ::
        fresh_table (tl.map (fun x => x.cfg)) now).get? pre.length =
          some (fresh_service r.cfg now) := by
      rw [List.get?_eq_getElem?, List.getElem?_append_right (le_refl _)]
      simp
    have h2 := loop_end_known (bs ++ rest)
      (pre ++ fresh_service r.cfg now :: fresh_table (tl.map (fun x => x.cfg)) now)
      (ctx_of_service r (some pre.length)) acts pre.length
      (fresh_service r.cfg now) rfl hget
    have h3 := apply_ctx_fresh r now (some pre.length)
      (hlog r (List.mem_cons_self r tl))
    rw [h3] at h2
    simp only [List.append_nil] at h2
    have hset : (pre ++ fresh_service r.cfg now ::
        fresh_table (tl.map (fun x => x.cfg)) now).set pre.length
          ({ r with dirty := true }) =
        pre ++ ({ r with dirty := true }) ::
          fresh_table (tl.map (fun x => x.cfg)) now := by
      rw [List.set_append_right _ _ (le_refl _)]
      simp
    rw [hset] at h2
    have hnames' :
        (((pre ++ [({ r with dirty := true } : Service)]) ++ tl).map
          (fun s => s.cfg.name)).Pairwise (fun a b => a ≠ b) := by
      have : ((pre ++ [{ r with dirty := true }]) ++ tl) =
          pre ++ ({ r with dirty := true }) :: tl := by
        simp
      rw [this]
      simpa using hnames
    obtain ⟨ctx2, h4⟩ := ih (pre ++ [{ r with dirty := true }]) now bs rest
      ({ ctx_of_service r (some pre.length) with
          stdin_pipe := Option.none, settle_pipe := Option.none }) acts hst
      (fun x hx => hr x (List.mem_cons_of_mem r hx))
      (fun x hx => hlog x (List.mem_cons_of_mem r hx)) hnames'
    have htbl1 : (pre ++ [{ r with dirty := true }]) ++
        fresh_table (tl.map (fun x => x.cfg)) now =
        pre ++ ({ r with dirty := true }) ::
          fresh_table (tl.map (fun x => x.cfg)) now := by
      simp
    have htbl2 : (pre ++ [{ r with dirty := true }]) ++
        tl.map (fun x => { x with dirty := true }) =
        pre ++ (r :: tl).map (fun x => { x with dirty := true }) := by
      simp
    rw [htbl1, htbl2] at h4
    refine ⟨ctx2, ?_⟩
    rw [List.append_assoc]
    rw [show fresh_table ((r :: tl).map (fun x => x.cfg)) now =
          fresh_service r.cfg now :: fresh_table (tl.map (fun x => x.cfg)) now
        from rfl]
    rw [h1, hfind, h2, h4]

/-- Claim C4 (amended): for records within the declared ranges whose
names are pairwise distinct, and where only logger services carry a
stdin pipe, SessionFd::save followed by SessionFd::deserialize into a
freshly initialised table of the same configs reproduces every saved
field of every record, the only difference being dirty, forced true on
load, and no stray cleanup actions arise. -/
theorem C4_session_round_trip (recs : List Service) (now : Timespec)
    (hrange : ∀ r ∈ recs, record_in_range r = true)
    (hlog : ∀ r ∈ recs, r.cfg.is_logger = false → r.stdin_pipe = Option.none)
    (hnames : (recs.map (fun s => s.cfg.name)).Pairwise (fun a b => a ≠ b)) :
    ∃ bytes, save_session recs = some bytes ∧
      deserialize bytes (fresh_table (recs.map (fun x => x.cfg)) now) =
        Except.ok (recs.map (fun x => { x with dirty := true }), []) := by
  obtain ⟨bytes, hsave⟩ := save_session_isSome recs (by
    intro r hrm
    have h := hrange r hrm
    simp only [record_in_range, Bool.and_eq_true, decide_eq_true_eq] at h
    exact h.2)
  refine ⟨bytes, hsave, ?_⟩
  obtain ⟨ctx2, h⟩ := loop_save_chunk recs [] now bytes []
    (ParseCtx.dflt Option.none) [] hsave hrange hlog (by simpa using hnames)
  simp only [List.append_nil, List.nil_append] at h
  rw [deserialize, h, deserialize_loop]

/-- A logger config for concrete session fixtures. -/
def cfgL : ServiceConfig := { cfgW with name := [104], is_logger := true }

/-- A fully populated logger record: every optional field present. -/
def svcL : Service :=
  { state := State.Up
  , target := Target.Up
  , pid := some 42
  , supervisor_pid := some 43
  , stdin_pipe := some (7, 8)
  , attempt_count := 5
  , exit_code := some (-3)
  , time := { tv_sec := 123, tv_nsec := 456 }
  , ready := true
  , dirty := false
  , settle_pipe := some (9, 10)
  , cfg := cfgL }

/-- Witness for C4: a two-service table, a populated logger plus a bare
service, survives a save/load round trip with only dirty forced. -/
theorem C4_witness :
    (∀ r ∈ [svcL, svcW], record_in_range r = true) ∧
    (∀ r ∈ [svcL, svcW], r.cfg.is_logger = false → r.stdin_pipe = Option.none) ∧
    (([svcL, svcW].map (fun s => s.cfg.name)).Pairwise (fun a b => a ≠ b)) ∧
    (∃ bytes, save_session [svcL, svcW] = some bytes ∧
      deserialize bytes (fresh_table ([svcL, svcW].map (fun x => x.cfg)) tsW) =
        Except.ok ([svcL, svcW].map (fun x => { x with dirty := true }), [])) :=
  ⟨by decide, by decide, by decide,
    C4_session_round_trip [svcL, svcW] tsW (by decide) (by decide) (by decide)⟩

/-- A non-logger record that nevertheless carries a stdin pipe. -/
def svcX : Service := { svcL with cfg := { cfgL with is_logger := false } }

/-- The bytes SessionFd::save produces for the single record svcX. -/
def c4bytes : List Nat := (save_session [svcX]).getD []

/-- Claim C4 counterexample: a non-logger record carrying a stdin pipe
is within all declared numeric ranges and its name is present in the
table, yet the save/load round trip does NOT reproduce its stdin_pipe -
deserialization closes the parsed fds and leaves the field empty. -/
theorem C4_counterexample :
    record_in_range svcX = true ∧
    save_session [svcX] = some c4bytes ∧
    deserialize c4bytes (fresh_table [svcX.cfg] tsW) =
      Except.ok ([{ svcX with dirty := true, stdin_pipe := Option.none }],
        [Action.closeFd 7, Action.closeFd 8]) ∧
    ({ svcX with dirty := true, stdin_pipe := Option.none } : Service) ≠
      { svcX with dirty := true } := by
  refine ⟨by decide, by decide, ?_, by decide⟩
  have hr : record_in_range svcX = true := by decide
  have hser : serialize_service svcX = some c4bytes := by decide
  have h1 := parse_record_body svcX hr c4bytes hser []
    (fresh_table [svcX.cfg] tsW) (ParseCtx.dflt Option.none) []
  rw [List.append_nil] at h1
  have hfind : find_by_name (fresh_table [svcX.cfg] tsW) svcX.cfg.name =
      some 0 := by decide
  have hget : (fresh_table [svcX.cfg] tsW).get? 0 =
      some (fresh_service svcX.cfg tsW) := rfl
  have h2 := loop_end_known [] (fresh_table [svcX.cfg] tsW)
    (ctx_of_service svcX (some 0)) [] 0 (fresh_service svcX.cfg tsW) rfl hget
  rw [deserialize, h1, hfind, h2, deserialize_loop]
  rfl

/-- Claim C8: deserializing a saved record whose name matches no
service sends SIGTERM to its pid and supervisor pid when present,
closes both fds of its stdin and settle pipes when present, and
returns the table unmodified. -/
theorem C8_unknown_cleanup (r : Service) (svcs : List Service)
    (hr : record_in_range r = true)
    (hnone : find_by_name svcs r.cfg.name = Option.none)
    (bytes : List Nat) (hser : serialize_service r = some bytes) :
    deserialize bytes svcs =
      Except.ok (svcs,
        (match r.pid with
         | some p => [Action.sigterm p]
         | Option.none => [])
        ++ (match r.supervisor_pid with
            | some p => [Action.sigterm p]
            | Option.none => [])
        ++ (match r.stdin_pipe with
            | some (rd, wr) => [Action.closeFd rd, Action.closeFd wr]
            | Option.none => [])
        ++ (match r.settle_pipe with
            | some (rd, wr) => [Action.closeFd rd, Action.closeFd wr]
            | Option.none => [])) := by
  have h1 := parse_record_body r hr bytes hser [] svcs
    (ParseCtx.dflt Option.none) []
  rw [List.append_nil] at h1
  have hj : (ctx_of_service r (find_by_name svcs r.cfg.name)).svc =
      Option.none := hnone
  have h2 := loop_end_unknown [] svcs
    (ctx_of_service r (find_by_name svcs r.cfg.name)) [] hj
  rw [deserialize, h1, h2, deserialize_loop, List.nil_append]
  rcases r with ⟨st, tg, pd, sp, sip, ac, ec, tm, rd, dt, stl, cfg⟩
  rcases pd with _ | p <;> rcases sp with _ | q <;>
    rcases sip with _ | ⟨ri, wi⟩ <;> rcases stl with _ | ⟨rs, ws⟩ <;> rfl

/-- The bytes SessionFd::save produces for the single record svcL. -/
def c8bytes : List Nat := (serialize_service svcL).getD []

/-- Witness for C8: svcL's record against a table that does not contain
its name terminates both pids and closes all four pipe fds, leaving the
table as it was. -/
theorem C8_witness :
    record_in_range svcL = true ∧
    find_by_name [svcW] svcL.cfg.name = Option.none ∧
    serialize_service svcL = some c8bytes ∧
    deserialize c8bytes [svcW] =
      Except.ok ([svcW],
        [Action.sigterm 42, Action.sigterm 43, Action.closeFd 7, Action.closeFd 8,
         Action.closeFd 9, Action.closeFd 10]) :=
  ⟨by decide, by decide, by decide,
    C8_unknown_cleanup svcL [svcW] (by decide) (by decide) c8bytes (by decide)⟩
